import Mathlib

/-!
# Verification of the metal.js `Component` surface-rendering engine

Shallow embedding of `src/src/component/Component.js`: the cache evaluator,
the surface placeholder expander, the surface rendering/caching path and the
lifecycle orchestration (`render` / `decorate` / `attach` / `detach`).

JS values that surface content can take are modelled by `Content`
(a string, a DOM node, or `undefined`/`null`).  Machine integers are `Int`
with explicit truncation to 32 bits where the source truncates (`| 0`).
DOM effects and external collaborators (the events collector, the DOM
primitives, nested component instances) are modelled as an environment
`Env` plus a chronological trace of events appended to the state.
-/

namespace Metal

/-- JS content value: a string, an element node (identified by its id for the
purposes of this model), or `undefined`/`null`. -/
inductive Content where
  | str (s : String)
  | node (id : String)
  | undef
deriving DecidableEq, Repr

namespace Content

/-- `core.isString`. -/
def isStr : Content → Bool
  | .str _ => true
  | _ => false

/-- JS truthiness of a content value (`undefined`, `null` and `""` are falsy). -/
def isTruthy : Content → Bool
  | .str s => s ≠ ""
  | .node _ => true
  | .undef => false

/-- `core.isDefAndNotNull`. -/
def isDefAndNotNull : Content → Bool
  | .undef => false
  | _ => true

/-- JS string coercion, used where the source concatenates a value into a
string.  Element nodes stringify to an `[object ...]` tag; no claim
exercises that branch. -/
def jsString : Content → String
  | .str s => s
  | .node _ => "[object Object]"
  | .undef => "undefined"

end Content

/-- `Component.Cache.NOT_CACHEABLE`. -/
def NOT_CACHEABLE : Int := -1

/-- `Component.Cache.NOT_INITIALIZED`. -/
def NOT_INITIALIZED : Int := -2

/-- `Component.Error.ALREADY_RENDERED`. -/
def ALREADY_RENDERED : String := "Component already rendered"

/-- Truncation to a signed 32-bit machine integer, as JS `| 0` does. -/
def toInt32 (n : Int) : Int := (n + 2 ^ 31) % 2 ^ 32 - 2 ^ 31

/-- Modelled from the spec: `string.hashCode` (module `src/string/string`, not
under `src/`) is described in §4.3 as classic polynomial string hashing
`h = 31*h + charCode`, truncated to machine integer width (JS 32-bit signed).
Char codes are the code points; identical to JS `charCodeAt` on BMP strings,
and every concrete string used below is ASCII. -/
def hashCode (s : String) : Int :=
  s.data.foldl (fun h c => toInt32 (31 * h + c.toNat)) 0

/-- A live DOM element reference held in a surface record.  Elements are
identified by how they were obtained; their markup is supplied by the
environment. -/
inductive ElemRef where
  | lookedUp (id : String)
  | nested (componentId : String)
  | builtFrom (markup : String)
  | ofContent (c : Content)
deriving DecidableEq, Repr

/-- One surface record, as stored in `Component.surfacesCollector`.
Absent JS fields are `none` / `[]`; `handled` starts falsy. -/
structure SurfaceRec where
  surfaceElementId : Option String := none
  componentName : Option String := none
  renderAttrs : List String := []
  cacheState : Int := NOT_INITIALIZED
  handled : Bool := false
  element : Option ElemRef := none
deriving DecidableEq, Repr

/-- One entry of `collectedSurfaces_`, pushed by `replaceSurfacePlaceholders_`. -/
structure Collected where
  cacheContent : Content
  content : Content
  surfaceElementId : String
deriving DecidableEq, Repr

/-- Observable side effects: DOM mutations, listener operations and
instrumentation marks for the operations the claims talk about.  Every
effectful collaborator call appends one event, in program order. -/
inductive Ev where
  | replaceSurface (id : String)
  | domReplace (id : String)
  | domRemoveChildren (id : String)
  | domAppend (id : String)
  | attachListeners (content : Content) (id : String)
  | attachInline (content : Content)
  | detachAll
  | detachUnused
  | cacheCheck (id : String) (current previous : Int) (hit : Bool)
  | finalizeSurface (id : String)
  | swapComponentElement (id : String)
  | updateComponent (id : String)
  | createSubComponent (name id : String)
  | appendToNested (id : String)
  | decorateAsSub (id : String)
  | renderAsSub (id : String)
  | nestedFullRender (id : String)
  | renderedContent (c : Content)
  | insertElement
  | removeElement
  | attachedHook
  | detachedHook
  | syncAttrs
deriving DecidableEq, Repr

/-- Component instance state (the mutable fields of the JS object, plus the
surface registry it owns and the event trace). -/
structure CState where
  surfaces : List (String × SurfaceRec) := []
  surfaceIds : List (String × Bool) := []
  collected : List Collected := []
  genIds : List (String × Nat) := []
  attrs : List String := []
  surfacesRenderAttrs : List (String × List String) := []
  elementContent : Content := .undef
  decorating : Bool := false
  inDocument : Bool := false
  wasRendered : Bool := false
  trace : List Ev := []
deriving DecidableEq, Repr

/-- Static environment: the component's configuration and the external
collaborators (subclass hooks, DOM, nested component instances). -/
structure Env where
  compId : String
  elementTag : String := "div"
  surfaceTag : String := "div"
  getSurfaceContent : String → String → Content := fun _ _ => .undef
  elementContent : Content := .undef
  attrOrderChange : Bool := false
  browserFormat : String → String := id
  outerHTML : ElemRef → String := fun _ => ""
  compress : String → String := id
  hasParent : ElemRef → Bool := fun _ => true
  nestedWasRendered : String → Bool := fun _ => false
  nestedExtendedContent : String → Content := fun _ => .undef
  nestedComponentHtml : String → Content → Content := fun _ c => c
  nestedElement : String → ElemRef := fun i => .nested i
  nestedElementEmpty : String → Bool := fun _ => true

/-! ## Association-list registry primitives (`SurfaceCollector` and the
per-instance maps; JS objects keep string keys in insertion order) -/

/-- Map lookup. -/
def alGet {α : Type} (l : List (String × α)) (k : String) : Option α :=
  (l.find? (fun p => p.1 == k)).map (·.2)

/-- Map insert-or-overwrite, preserving key insertion order. -/
def alSet {α : Type} (l : List (String × α)) (k : String) (v : α) :
    List (String × α) :=
  if (l.find? (fun p => p.1 == k)).isSome then
    l.map (fun p => if p.1 == k then (k, v) else p)
  else l ++ [(k, v)]

/-- Map in-place update of an existing key (no-op when absent). -/
def alUpdate {α : Type} (l : List (String × α)) (k : String) (f : α → α) :
    List (String × α) :=
  l.map (fun p => if p.1 == k then (p.1, f p.2) else p)

/-- Append an event to the chronological trace. -/
def pushTrace (st : CState) (e : Ev) : CState :=
  {st with trace := st.trace ++ [e]}

/-! ## Pure functions: cache evaluator and id resolution -/

/-- `compareCacheStates_(currentCacheState, previousCacheState)`. -/
def compareCacheStates_ (currentCacheState previousCacheState : Int) : Bool :=
  currentCacheState != NOT_INITIALIZED &&
  currentCacheState != NOT_CACHEABLE &&
  currentCacheState == previousCacheState

/-- `computeSurfaceCacheState_(value)`: hash strings (normalizing first when
the host browser reorders attributes on parse), everything else is
`NOT_CACHEABLE`. -/
def computeSurfaceCacheState_ (env : Env) : Content → Int
  | .str s => hashCode (if env.attrOrderChange then env.browserFormat s else s)
  | _ => NOT_CACHEABLE

/-- Substring test, as JS `indexOf(...) !== -1`. -/
def containsSub (hay needle : List Char) : Bool :=
  match hay with
  | [] => needle == []
  | _ :: t => needle.isPrefixOf hay || containsSub t needle

/-- `checkHasElementTag_(content, id)`. -/
def checkHasElementTag_ (content : Content) (id : String) : Bool :=
  match content with
  | .str s => containsSub s.data (" id=\"" ++ id ++ "\"").data
  | .node nid => nid == id
  | .undef => false

/-- `hasComponentPrefix_(surfaceId)`. -/
def hasComponentPrefix_ (env : Env) (surfaceId : String) : Bool :=
  surfaceId.take (env.compId.length + 1) == env.compId ++ "-"

/-- `prefixSurfaceId_(surfaceId)`. -/
def prefixSurfaceId_ (env : Env) (surfaceId : String) : String :=
  env.compId ++ "-" ++ surfaceId

/-- `getSurfaceElementId_(surfaceId, opt_surface)`.  JS truthiness: an
empty-string `surfaceElementId` or `componentName` is falsy. -/
def getSurfaceElementId_ (env : Env) (surfaceId : String)
    (optSurface : Option SurfaceRec := none) : String :=
  let surface := optSurface.getD {}
  if (surface.surfaceElementId.getD "") != "" then surface.surfaceElementId.getD ""
  else if (surface.componentName.getD "") != "" || hasComponentPrefix_ env surfaceId then
    surfaceId
  else prefixSurfaceId_ env surfaceId

/-- `getSurfaceId_(surfaceElementId, surface)`. -/
def getSurfaceId_ (env : Env) (surfaceElementId : String) (surface : SurfaceRec) : String :=
  if (surface.componentName.getD "") != "" || !hasComponentPrefix_ env surfaceElementId then
    surfaceElementId
  else surfaceElementId.drop (env.compId.length + 1)

/-- `getSurface(surfaceId)`: qualified lookup with fallback to the raw id. -/
def getSurface (env : Env) (st : CState) (surfaceId : String) : Option SurfaceRec :=
  match alGet st.surfaces (getSurfaceElementId_ env surfaceId) with
  | some s => some s
  | none => alGet st.surfaces surfaceId

/-- The registry key a `getSurface(surfaceId)` lookup resolves to; JS mutates
the record through this alias. -/
def resolveSurfaceKey (env : Env) (st : CState) (surfaceId : String) : Option String :=
  let k1 := getSurfaceElementId_ env surfaceId
  if (alGet st.surfaces k1).isSome then some k1
  else if (alGet st.surfaces surfaceId).isSome then some surfaceId
  else none

/-- Mutate the record a `getSurface(surfaceId)` lookup aliases (JS writes
through the returned object reference).  No-op when the lookup fails: the
source would raise a `TypeError` there, and no verified path reaches it. -/
def updateSurface (env : Env) (st : CState) (surfaceId : String)
    (f : SurfaceRec → SurfaceRec) : CState :=
  match resolveSurfaceKey env st surfaceId with
  | some k => {st with surfaces := alUpdate st.surfaces k f}
  | none => st

/-- `cacheSurfaceContent(surfaceElementId, content)`. -/
def cacheSurfaceContent (env : Env) (st : CState) (surfaceElementId : String)
    (content : Content) : CState :=
  updateSurface env st surfaceElementId
    (fun s => {s with cacheState := computeSurfaceCacheState_ env content})

/-! ## Surface registration -/

/-- `addMissingAttr_(attrName)`: add a simple attribute unless present
(the `Attribute` base object is modelled as its set of attribute names). -/
def addMissingAttr_ (st : CState) (attrName : String) : CState :=
  if st.attrs.contains attrName then st else {st with attrs := st.attrs ++ [attrName]}

/-- `cacheSurfaceRenderAttrs_(surfaceElementId)`: flat attr → surfaces map. -/
def cacheSurfaceRenderAttrs_ (env : Env) (st : CState) (surfaceElementId : String) : CState :=
  let attrs := ((getSurface env st surfaceElementId).map (·.renderAttrs)).getD []
  attrs.foldl (fun st a =>
    let st :=
      if (alGet st.surfacesRenderAttrs a).isSome then st
      else addMissingAttr_ {st with surfacesRenderAttrs := alSet st.surfacesRenderAttrs a []} a
    let upd := alUpdate st.surfacesRenderAttrs a
      (fun l => if l.contains surfaceElementId then l else l ++ [surfaceElementId])
    {st with surfacesRenderAttrs := upd}) st

/-- `createSubComponent_(componentName, componentId)`: the nested instance's
construction through the component registry is abstracted into the trace. -/
def createSubComponent_ (st : CState) (componentName componentId : String) : CState :=
  pushTrace st (.createSubComponent componentName componentId)

/-- `addSurface(surfaceId, opt_surfaceConfig)`: stamps the config's
`cacheState` with `NOT_INITIALIZED` before registering it (the JS mutates the
caller's config object in place), derives the element id, records ownership,
stores the record, creates a sub-component when `componentName` is set, and
caches render attrs. -/
def addSurface (env : Env) (st : CState) (surfaceId : String)
    (optSurfaceConfig : Option SurfaceRec := none) : CState :=
  let suppliedConfig := optSurfaceConfig.getD {}
  let config := {suppliedConfig with cacheState := NOT_INITIALIZED}
  let surfaceElementId := getSurfaceElementId_ env surfaceId (some config)
  let st := {st with surfaceIds := alSet st.surfaceIds surfaceElementId true,
                     surfaces := alSet st.surfaces surfaceElementId config}
  let st :=
    if (config.componentName.getD "") != "" then
      createSubComponent_ st (config.componentName.getD "") surfaceElementId
    else st
  cacheSurfaceRenderAttrs_ env st surfaceElementId

/-- `generateSurfaceElementId_(opt_parentSurfaceElementId)`. -/
def generateSurfaceElementId_ (env : Env) (st : CState) (optParent : Option String) :
    CState × String :=
  let parentElementId :=
    match optParent with
    | some p => if p != "" then p else env.compId
    | none => env.compId
  let n := ((alGet st.genIds parentElementId).getD 0) + 1
  ({st with genIds := alSet st.genIds parentElementId n},
   parentElementId ++ "-s" ++ toString n)

/-- `createPlaceholderSurface_(opt_surfaceElementId, opt_parentSurfaceElementId)`. -/
def createPlaceholderSurface_ (env : Env) (st : CState)
    (optSurfaceElementId : Option String) (optParent : Option String) :
    CState × String :=
  let (st, surfaceElementId) :=
    match optSurfaceElementId with
    | some i => (st, i)
    | none => generateSurfaceElementId_ env st optParent
  let st :=
    if (getSurface env st surfaceElementId).isSome then st
    else addSurface env st surfaceElementId (some {surfaceElementId := some surfaceElementId})
  (st, surfaceElementId)

/-! ## The placeholder token scanner

`Component.SURFACE_REGEX` is `/\%\%\%\%~s(?:-([^~:]+))?~\%\%\%\%/g`: a global
left-to-right non-overlapping scan.  `matchToken` decides whether a token
starts at the head of the character list, exactly as the regex would:
the open marker `%%%%~s`, then either `-` followed by one or more characters
drawn from the complement of `~` and `:` and then `~%%%%`, or `~%%%%`
directly (anonymous placeholder). -/

/-- The six-character open marker `%%%%~s`. -/
def openMarker : List Char := "%%%%~s".data

/-- The five-character close marker `~%%%%`. -/
def closeMarker : List Char := "~%%%%".data

/-- Strip an expected literal prefix, returning the remainder. -/
def stripPrefixChars : List Char → List Char → Option (List Char)
  | [], l => some l
  | _ :: _, [] => none
  | p :: ps, c :: cs => if p == c then stripPrefixChars ps cs else none

/-- Match one placeholder token at the head of `l`; on success return the
captured id (none for an anonymous token) and the remainder after the token. -/
def matchToken (l : List Char) : Option (Option String × List Char) :=
  match stripPrefixChars openMarker l with
  | none => none
  | some r =>
    if r.head? = some '-' then
      let idChars := r.tail.takeWhile (fun c => c != '~' && c != ':')
      if idChars.isEmpty then none
      else
        match stripPrefixChars closeMarker (r.tail.drop idChars.length) with
        | some rest => some (some ⟨idChars⟩, rest)
        | none => none
    else
      match stripPrefixChars closeMarker r with
      | some rest => some (none, rest)
      | none => none

/-- Whether the string contains any placeholder token (i.e. whether
`SURFACE_REGEX` has a match). -/
def hasToken : List Char → Bool
  | [] => false
  | c :: rest => (matchToken (c :: rest)).isSome || hasToken rest

theorem stripPrefixChars_length :
    ∀ (p l r : List Char), stripPrefixChars p l = some r → r.length + p.length = l.length := by
  intro p
  induction p with
  | nil =>
    intro l r h
    simp [stripPrefixChars] at h
    simp [h]
  | cons a as ih =>
    intro l r h
    cases l with
    | nil => simp [stripPrefixChars] at h
    | cons c cs =>
      simp only [stripPrefixChars] at h
      split at h
      · have := ih cs r h
        simp [List.length_cons]
        omega
      · exact absurd h (by simp)

theorem matchToken_remainder_lt :
    ∀ (l : List Char) (i : Option String) (rest : List Char),
      matchToken l = some (i, rest) → rest.length < l.length := by
  intro l i rest h
  have hopen : openMarker.length = 6 := rfl
  have hclose : closeMarker.length = 5 := rfl
  unfold matchToken at h
  cases hs : stripPrefixChars openMarker l with
  | none => rw [hs] at h; exact absurd h (by simp)
  | some r =>
    rw [hs] at h
    have hr : r.length + openMarker.length = l.length := stripPrefixChars_length _ _ _ hs
    simp only at h
    split at h
    · split at h
      · exact absurd h (by simp)
      · cases hc : stripPrefixChars closeMarker
            (r.tail.drop (r.tail.takeWhile (fun c => c != '~' && c != ':')).length) with
        | none => rw [hc] at h; exact absurd h (by simp)
        | some rest2 =>
          rw [hc] at h
          have hlen := stripPrefixChars_length _ _ _ hc
          have hd : (r.tail.drop
              (r.tail.takeWhile (fun c => c != '~' && c != ':')).length).length ≤ r.length := by
            simp only [List.length_drop, List.length_tail]
            omega
          simp only [Option.some.injEq, Prod.mk.injEq] at h
          obtain ⟨-, hrest⟩ := h
          subst hrest
          omega
    · cases hc : stripPrefixChars closeMarker r with
      | none => rw [hc] at h; exact absurd h (by simp)
      | some rest2 =>
        rw [hc] at h
        have hlen := stripPrefixChars_length _ _ _ hc
        simp only [Option.some.injEq, Prod.mk.injEq] at h
        obtain ⟨-, hrest⟩ := h
        subst hrest
        omega


/-! ## Surface markup construction -/

/-- `wrapContentIfNecessary(content, id, tag)`. -/
def wrapContentIfNecessary (content : Content) (id tag : String) : Content :=
  if checkHasElementTag_ content id then content
  else .str ("<" ++ tag ++ " id=\"" ++ id ++ "\">" ++ content.jsString ++ "</" ++ tag ++ ">")

/-- `getNonComponentSurfaceHtml(surfaceElementId, content)`. -/
def getNonComponentSurfaceHtml (env : Env) (surfaceElementId : String)
    (content : Content) : Content :=
  wrapContentIfNecessary content surfaceElementId env.surfaceTag

/-- `getSurfaceHtml(surfaceElementId, content)`: component-backed surfaces
delegate to the nested instance's `getComponentHtml`. -/
def getSurfaceHtml (env : Env) (st : CState) (surfaceElementId : String)
    (content : Content) : Content :=
  match getSurface env st surfaceElementId with
  | none => content
  | some surface =>
    if (surface.componentName.getD "") != "" then
      env.nestedComponentHtml surfaceElementId content
    else getNonComponentSurfaceHtml env surfaceElementId content

/-- `getSurfaceContent_(surfaceElementId)`: component-backed surfaces ask the
nested instance (empty string once it has rendered, else its extended
content); plain surfaces ask the subclass hook `getSurfaceContent`. -/
def getSurfaceContent_ (env : Env) (st : CState) (surfaceElementId : String) : Content :=
  match getSurface env st surfaceElementId with
  | none => .undef
  | some surface =>
    if (surface.componentName.getD "") != "" then
      if env.nestedWasRendered surfaceElementId then .str ""
      else env.nestedExtendedContent surfaceElementId
    else
      env.getSurfaceContent (getSurfaceId_ env surfaceElementId surface) surfaceElementId

/-- One left-to-right scan pass of `replaceSurfacePlaceholders_` over the
character list of a string content.  At each token: resolve/mint the surface
(`createPlaceholderSurface_`), mark it handled, fetch its content, build its
markup (`getSurfaceHtml`), expand that markup recursively with this surface as
owner (through `recur`, the next-lower nesting level), push the collected
entry after the recursive call returns, splice the expanded markup in place of
the token, and continue scanning after the token.  `gas` is a structural
bound on scan steps; one gas is spent per character or token, so
`gas = l.length` always suffices and the exhaustion branch is unreachable. -/
def expandScan (env : Env)
    (recur : CState → Content → Option String → CState × Content) :
    Nat → CState → Option String → List Char → CState × List Char
  | 0, st, _, l => (st, l)
  | gas + 1, st, parent, l =>
    match l with
    | [] => (st, [])
    | c :: rest =>
      match matchToken (c :: rest) with
      | none =>
        let p := expandScan env recur gas st parent rest
        (p.1, c :: p.2)
      | some (idOpt, after) =>
        let p1 := createPlaceholderSurface_ env st idOpt parent
        let id := p1.2
        let st2 := updateSurface env p1.1 id (fun s => {s with handled := true})
        let surfaceContent := getSurfaceContent_ env st2 id
        let surfaceHtml := getSurfaceHtml env st2 id surfaceContent
        let p3 := recur st2 surfaceHtml (some id)
        let st4 := {p3.1 with collected :=
          p3.1.collected ++ [{cacheContent := surfaceContent, content := p3.2,
                              surfaceElementId := id}]}
        let p5 := expandScan env recur gas st4 parent after
        (p5.1, p3.2.jsString.data ++ p5.2)

/-- `replaceSurfacePlaceholders_(content, opt_surfaceElementId)`: non-string
content is returned unchanged; strings are scanned by `expandScan`.  `fuel`
bounds the nesting depth of recursive expansion (unbounded in the JS source);
every claim below holds for every sufficiently large fuel value. -/
def replaceSurfacePlaceholders_ (env : Env) :
    Nat → CState → Content → Option String → CState × Content
  | fuel, st, content, optSurfaceElementId =>
    match content with
    | .str s =>
      let recur : CState → Content → Option String → CState × Content :=
        match fuel with
        | 0 => fun st c _ => (st, c)
        | f + 1 => fun st c oid => replaceSurfacePlaceholders_ env f st c oid
      let p := expandScan env recur s.data.length st optSurfaceElementId s.data
      (p.1, .str (String.mk p.2))
    | _ => (st, content)

theorem expandScan_no_token (env : Env)
    (recur : CState → Content → Option String → CState × Content)
    (parent : Option String) :
    ∀ (gas : Nat) (l : List Char) (st : CState), hasToken l = false →
      expandScan env recur gas st parent l = (st, l) := by
  intro gas
  induction gas with
  | zero => intro l st _; rfl
  | succ g ih =>
    intro l st h
    cases l with
    | nil => rfl
    | cons c rest =>
      rw [hasToken] at h
      cases hm : matchToken (c :: rest) with
      | some v => rw [hm] at h; simp at h
      | none =>
        rw [hm] at h
        simp only [Option.isSome_none, Bool.false_or] at h
        simp only [expandScan, hm]
        rw [ih rest st h]

theorem replaceSurfacePlaceholders_non_string (env : Env) (fuel : Nat)
    (st : CState) (c : Content) (optId : Option String) (h : c.isStr = false) :
    replaceSurfacePlaceholders_ env fuel st c optId = (st, c) := by
  cases c with
  | str s => simp [Content.isStr] at h
  | node i => simp [replaceSurfacePlaceholders_]
  | undef => simp [replaceSurfacePlaceholders_]

theorem replaceSurfacePlaceholders_no_token (env : Env) (fuel : Nat)
    (st : CState) (s : String) (optId : Option String)
    (h : hasToken s.data = false) :
    replaceSurfacePlaceholders_ env fuel st (.str s) optId = (st, .str s) := by
  cases fuel with
  | zero => simp [replaceSurfacePlaceholders_, expandScan_no_token, h]
  | succ f => simp [replaceSurfacePlaceholders_, expandScan_no_token, h]

/-! ## Surface rendering -/

/-- State-reading part of `getSurfaceElement(surfaceId)`: the element the
lookup resolves to (the cached reference, the nested component's element, or
a document lookup / fresh element keyed by the surface element id). -/
def surfaceElementRef (env : Env) (st : CState) (surfaceId : String) : Option ElemRef :=
  match getSurface env st surfaceId with
  | none => none
  | some surface =>
    match surface.element with
    | some e => some e
    | none =>
      if (surface.componentName.getD "") != "" then some (env.nestedElement surfaceId)
      else some (.lookedUp (getSurfaceElementId_ env surfaceId (some surface)))

/-- `getSurfaceElement(surfaceId)`: returns the resolved element and caches it
in the surface record. -/
def getSurfaceElement (env : Env) (st : CState) (surfaceId : String) :
    CState × Option ElemRef :=
  match surfaceElementRef env st surfaceId with
  | none => (st, none)
  | some e => (updateSurface env st surfaceId (fun s => {s with element := some e}), some e)

/-- The stored `cacheState` of the surface a lookup resolves to. -/
def surfCacheState (env : Env) (st : CState) (surfaceId : String) : Int :=
  ((getSurface env st surfaceId).map (·.cacheState)).getD NOT_INITIALIZED

/-- `renderComponentSurface_(surfaceElementId, opt_content)`: delegation to
the nested component instance, abstracted into trace events (already-rendered
nested instances get a registry update; otherwise the markup is appended when
the nested element is empty and the instance is decorated/rendered as a
sub-component according to the parent's `decorating_` flag; with no markup the
nested instance renders itself fully). -/
def renderComponentSurface_ (env : Env) (st : CState) (surfaceElementId : String)
    (optContent : Content) : CState :=
  if env.nestedWasRendered surfaceElementId then
    pushTrace st (.updateComponent surfaceElementId)
  else if optContent.isTruthy then
    let st :=
      if env.nestedElementEmpty surfaceElementId then
        pushTrace st (.appendToNested surfaceElementId)
      else st
    if st.decorating then pushTrace st (.decorateAsSub surfaceElementId)
    else pushTrace st (.renderAsSub surfaceElementId)
  else pushTrace st (.nestedFullRender surfaceElementId)

/-- `replaceSurfaceContent_(surfaceElementId, content)`: expand placeholders,
then either splice the new outer element in place (when the expanded content
carries the surface's own id) or wholesale-replace the element's children.
Entry is instrumented with a `replaceSurface` event. -/
def replaceSurfaceContent_ (env : Env) (fuel : Nat) (st : CState)
    (surfaceElementId : String) (content : Content) : CState :=
  let st0 := pushTrace st (.replaceSurface surfaceElementId)
  let pEl := getSurfaceElement env st0 surfaceElementId
  let p := replaceSurfacePlaceholders_ env fuel pEl.1 content (some surfaceElementId)
  if checkHasElementTag_ p.2 surfaceElementId then
    let newEl : ElemRef :=
      match p.2 with
      | .str m => .builtFrom m
      | other => .ofContent other
    let st2 := updateSurface env p.1 surfaceElementId (fun s => {s with element := some newEl})
    match pEl.2 with
    | some e => if env.hasParent e then pushTrace st2 (.domReplace surfaceElementId) else st2
    | none => st2
  else
    pushTrace (pushTrace p.1 (.domRemoveChildren surfaceElementId))
      (.domAppend surfaceElementId)

/-- The scan of `renderPlaceholderSurfaceContents_`: for each token in the
content, resolve/mint the surface and re-enter `renderSurfaceContent` on it
(through `recur`).  `gas = l.length` always suffices. -/
def rpscScan (env : Env) (recur : CState → String → CState) :
    Nat → CState → String → List Char → CState
  | 0, st, _, _ => st
  | gas + 1, st, parentId, l =>
    match l with
    | [] => st
    | c :: rest =>
      match matchToken (c :: rest) with
      | none => rpscScan env recur gas st parentId rest
      | some (idOpt, after) =>
        let p := createPlaceholderSurface_ env st idOpt (some parentId)
        rpscScan env recur gas (recur p.1 p.2) parentId after

/-- `renderPlaceholderSurfaceContents_(content, surfaceElementId)`. -/
def renderPlaceholderSurfaceContents_ (env : Env) (recur : CState → String → CState)
    (st : CState) (content : Content) (surfaceElementId : String) : CState :=
  match content with
  | .str s => rpscScan env recur s.data.length st surfaceElementId s.data
  | _ => st

/-- The decoration-time pre-caching step of `renderSurfaceContent`: cache the
compressed outer markup of the live surface element
(`cacheSurfaceContent(surfaceElementId, html.compress(getSurfaceElement(surfaceElementId).outerHTML))`). -/
def decorCachePre (env : Env) (st : CState) (surfaceElementId : String) : CState :=
  let pEl := getSurfaceElement env st surfaceElementId
  let markup :=
    match pEl.2 with
    | some e => env.compress (env.outerHTML e)
    | none => ""
  cacheSurfaceContent env pEl.1 surfaceElementId (.str markup)

/-- The caching/comparison phase of `renderSurfaceContent`: when decorating,
first cache the DOM markup (`decorCachePre`); read the previous cache state;
cache the full pre-expansion `content` while decorating, else the
`cacheContent`; compare current against previous; while decorating re-cache
`cacheContent` so the intermediate value does not survive.  Returns the state
(with the comparison instrumented as a `cacheCheck` event) and the hit flag. -/
def cacheCompare (env : Env) (st : CState) (surfaceElementId : String)
    (content cacheContent : Content) : CState × Bool :=
  let st1 := if st.decorating then decorCachePre env st surfaceElementId else st
  let previousCacheState := surfCacheState env st1 surfaceElementId
  let st2 := cacheSurfaceContent env st1 surfaceElementId
    (if st1.decorating then content else cacheContent)
  let currentCacheState := surfCacheState env st2 surfaceElementId
  let cacheHit := compareCacheStates_ currentCacheState previousCacheState
  let st3 :=
    if st2.decorating then cacheSurfaceContent env st2 surfaceElementId cacheContent
    else st2
  (pushTrace st3
    (.cacheCheck surfaceElementId currentCacheState previousCacheState cacheHit),
   cacheHit)

/-- `renderSurfaceContent(surfaceElementId, opt_content, opt_cacheContent)`.
Component surfaces delegate to `renderComponentSurface_`.  Otherwise resolve
the content (`opt_content || getSurfaceContent_`); skip when undefined/null.
Run the caching/comparison phase (`cacheCompare`).  On a hit, (re)attach
listeners when decorating and recurse into placeholder surfaces; on a miss,
attach listeners and replace the surface content.  `fuel` bounds nested
re-entry depth (unbounded in the JS source). -/
def renderSurfaceContent (env : Env) :
    Nat → CState → String → Content → Content → CState
  | fuel, st, surfaceElementId, optContent, optCacheContent =>
    match getSurface env st surfaceElementId with
    | none => st
    | some surface =>
      if (surface.componentName.getD "") != "" then
        renderComponentSurface_ env st surfaceElementId optContent
      else
        let content :=
          if optContent.isTruthy then optContent
          else getSurfaceContent_ env st surfaceElementId
        if content.isDefAndNotNull then
          let cacheContent := if optCacheContent.isTruthy then optCacheContent else content
          let p := cacheCompare env st surfaceElementId content cacheContent
          if p.2 then
            let st5 :=
              if p.1.decorating then
                pushTrace p.1 (.attachListeners cacheContent surfaceElementId)
              else p.1
            let recur : CState → String → CState :=
              match fuel with
              | 0 => fun st _ => st
              | f + 1 => fun st id => renderSurfaceContent env f st id .undef .undef
            renderPlaceholderSurfaceContents_ env recur st5 content surfaceElementId
          else
            replaceSurfaceContent_ env fuel
              (pushTrace p.1 (.attachListeners cacheContent surfaceElementId))
              surfaceElementId content
        else st

/-! ## Placeholder finalization and lifecycle -/

/-- `updatePlaceholderSurface_(collectedData)`: swap component elements into
place, re-enter `renderSurfaceContent` for component surfaces and while
decorating, otherwise reset the element reference, cache the content and
attach its listeners.  Entry is instrumented with a `finalizeSurface` event. -/
def updatePlaceholderSurface_ (env : Env) (fuel : Nat) (st : CState)
    (collectedData : Collected) : CState :=
  let surfaceElementId := collectedData.surfaceElementId
  let st := pushTrace st (.finalizeSurface surfaceElementId)
  match getSurface env st surfaceElementId with
  | none => st
  | some surface =>
    let st :=
      if (surface.componentName.getD "") != "" then
        let pEl := getSurfaceElement env st surfaceElementId
        pushTrace pEl.1 (.swapComponentElement surfaceElementId)
      else st
    if st.decorating || (surface.componentName.getD "") != "" then
      renderSurfaceContent env fuel st surfaceElementId
        collectedData.content collectedData.cacheContent
    else
      let st := updateSurface env st surfaceElementId (fun s => {s with element := none})
      let st := cacheSurfaceContent env st surfaceElementId collectedData.cacheContent
      pushTrace st (.attachListeners collectedData.cacheContent surfaceElementId)

/-- `updatePlaceholderSurfaces_()`: walk `collectedSurfaces_` backwards
(from the last entry pushed to the first), update each surface and clear its
`handled` mark, then empty the collected list. -/
def updatePlaceholderSurfaces_ (env : Env) (fuel : Nat) (st : CState) : CState :=
  let snapshot := st.collected
  let st := snapshot.reverse.foldl
    (fun st cd =>
      let st := updatePlaceholderSurface_ env fuel st cd
      updateSurface env st cd.surfaceElementId (fun s => {s with handled := false})) st
  {st with collected := []}

/-- `renderSurfacesContent_(surfaces)`: reset the generated-id counters,
render every not-yet-handled surface in the given key set, and, when the
component has already rendered once, finalize collected placeholder surfaces
and drop listeners not re-confirmed in this pass. -/
def renderSurfacesContent_ (env : Env) (fuel : Nat) (st : CState)
    (surfaceKeys : List String) : CState :=
  let st := {st with genIds := []}
  let st := surfaceKeys.foldl
    (fun st k =>
      if ((getSurface env st k).map (·.handled)).getD false then st
      else renderSurfaceContent env fuel st k .undef .undef) st
  if st.wasRendered then
    pushTrace (updatePlaceholderSurfaces_ env fuel st) .detachUnused
  else st

/-- `getElementContent_()`: the subclass hook's result, memoized in
`elementContent_` (JS `||` re-computes when the cached value is falsy). -/
def getElementContent_ (env : Env) (st : CState) : CState × Content :=
  let c := if st.elementContent.isTruthy then st.elementContent else env.elementContent
  ({st with elementContent := c}, c)

/-- `attachInlineListeners_()`: attach inline listeners against the element
content, then null the memo. -/
def attachInlineListeners_ (env : Env) (st : CState) : CState :=
  let p := getElementContent_ env st
  let st := pushTrace p.1 (.attachInline p.2)
  {st with elementContent := .undef}

/-- `renderInternal()` (base implementation): expand placeholders in the
element content (`getElementExtendedContent`) and render it into the
component's element when truthy (the DOM reconciliation of `renderContent_`
is abstracted into the trace). -/
def renderInternal (env : Env) (fuel : Nat) (st : CState) : CState :=
  let pc := getElementContent_ env st
  let p := replaceSurfacePlaceholders_ env fuel pc.1 pc.2 none
  if p.2.isTruthy then pushTrace p.1 (.renderedContent p.2) else p.1

/-- `attach(opt_parentElement, opt_siblingElement)`: no-op when already in the
document; otherwise insert the element, mark attached, finalize collected
placeholder surfaces on the very first attach, and run the `attached` hook. -/
def attach (env : Env) (fuel : Nat) (st : CState) : CState :=
  if st.inDocument then st
  else
    let st := pushTrace st .insertElement
    let st := {st with inDocument := true}
    let st := if st.wasRendered then st else updatePlaceholderSurfaces_ env fuel st
    pushTrace st .attachedHook

/-- `detach()`: when in the document, remove the element, mark detached and
run the `detached` hook; always detach all inline listeners. -/
def detach (st : CState) : CState :=
  let st :=
    if st.inDocument then
      pushTrace {pushTrace st .removeElement with inDocument := false} .detachedHook
    else st
  pushTrace st .detachAll

/-- `render(opt_parentElement, opt_siblingElement)`: raises `AlreadyRendered`
when the instance was already rendered; otherwise run `renderInternal`,
render all registered surfaces, attach inline listeners, fire one attribute
synchronization pass, attach, and mark rendered. -/
def render (env : Env) (fuel : Nat) (st : CState) : Except String CState :=
  if st.wasRendered then .error ALREADY_RENDERED
  else .ok (
    let st := renderInternal env fuel st
    let st := renderSurfacesContent_ env fuel st (st.surfaceIds.map (·.1))
    let st := attachInlineListeners_ env st
    let st := pushTrace st .syncAttrs
    let st := attach env fuel st
    {st with wasRendered := true})

/-- `decorate()`: raises `AlreadyRendered` when the instance is in the
document; otherwise set the decorating flag, run `decorateInternal` (a no-op
in the base class), expand all placeholders of the existing element content,
render all registered surfaces with cache checks, attach inline listeners,
fire attribute synchronization, attach, clear the flag and mark rendered. -/
def decorate (env : Env) (fuel : Nat) (st : CState) : Except String CState :=
  if st.inDocument then .error ALREADY_RENDERED
  else .ok (
    let st := {st with decorating := true}
    let pc := getElementContent_ env st
    let p := replaceSurfacePlaceholders_ env fuel pc.1 pc.2 none
    let st := renderSurfacesContent_ env fuel p.1 (p.1.surfaceIds.map (·.1))
    let st := attachInlineListeners_ env st
    let st := pushTrace st .syncAttrs
    let st := attach env fuel st
    let st := {st with decorating := false}
    {st with wasRendered := true})

/-! ## Helper lemmas: registry maps, preserved state components -/

theorem alGet_cons_ne {α : Type} (p : String × α) (t : List (String × α))
    (k : String) (h : p.1 ≠ k) : alGet (p :: t) k = alGet t k := by
  have hpk : (p.1 == k) = false := by simp [h]
  simp [alGet, List.find?, hpk]

theorem alGet_cons_self {α : Type} (p : String × α) (t : List (String × α))
    (h : p.1 = k) : alGet (p :: t) k = some p.2 := by
  have hpk : (p.1 == k) = true := by simp [h]
  simp [alGet, List.find?, hpk]

theorem alSet_cons_ne {α : Type} (p : String × α) (t : List (String × α))
    (k : String) (v : α) (h : p.1 ≠ k) :
    alSet (p :: t) k v = p :: alSet t k v := by
  unfold alSet
  have hpk : (p.1 == k) = false := by simp [h]
  simp only [List.find?, hpk]
  split <;> simp_all

theorem alGet_alSet_self {α : Type} (l : List (String × α)) (k : String) (v : α) :
    alGet (alSet l k v) k = some v := by
  induction l with
  | nil => simp [alGet, alSet, List.find?]
  | cons p t ih =>
    by_cases hk : p.1 = k
    · have hpk : (p.1 == k) = true := by simp [hk]
      unfold alSet
      simp only [List.find?, hpk, Option.isSome_some, if_true, List.map_cons]
      exact alGet_cons_self ((k, v) : String × α) _ rfl
    · rw [alSet_cons_ne p t k v hk, alGet_cons_ne _ _ _ hk]
      exact ih

theorem alGet_alUpdate_self {α : Type} (l : List (String × α)) (k : String) (f : α → α) :
    alGet (alUpdate l k f) k = (alGet l k).map f := by
  induction l with
  | nil => simp [alGet, alUpdate]
  | cons p t ih =>
    by_cases hk : p.1 = k
    · have hpk : (p.1 == k) = true := by simp [hk]
      simp only [alUpdate, List.map_cons, hpk, if_true]
      rw [alGet_cons_self ((p.1, f p.2) : String × α) _ hk, alGet_cons_self p _ hk]
      rfl
    · have hpk : (p.1 == k) = false := by simp [hk]
      simp only [alUpdate, List.map_cons, hpk, Bool.false_eq_true, if_false]
      rw [alGet_cons_ne _ _ _ hk, alGet_cons_ne _ _ _ hk]
      exact ih

theorem alGet_alUpdate_ne {α : Type} (l : List (String × α)) (k k' : String)
    (f : α → α) (h : k' ≠ k) :
    alGet (alUpdate l k f) k' = alGet l k' := by
  induction l with
  | nil => simp [alGet, alUpdate]
  | cons p t ih =>
    by_cases hk : p.1 = k
    · have hpk : (p.1 == k) = true := by simp [hk]
      have hne : ((p.1, f p.2) : String × α).1 ≠ k' := fun hh => h ((hk ▸ hh).symm)
      simp only [alUpdate, List.map_cons, hpk, if_true]
      rw [alGet_cons_ne _ _ _ hne, alGet_cons_ne _ _ _ (fun hh => h ((hk ▸ hh).symm))]
      exact ih
    · have hpk : (p.1 == k) = false := by simp [hk]
      simp only [alUpdate, List.map_cons, hpk, Bool.false_eq_true, if_false]
      by_cases hp' : p.1 = k'
      · rw [alGet_cons_self _ _ hp', alGet_cons_self _ _ hp']
      · rw [alGet_cons_ne _ _ _ hp', alGet_cons_ne _ _ _ hp']
        exact ih

/-- The lifecycle flags of a state; the surface engine never writes them. -/
def flags (st : CState) : Bool × Bool × Bool :=
  (st.decorating, st.inDocument, st.wasRendered)

theorem foldl_preserve {β γ : Type} (proj : CState → γ) (f : CState → β → CState)
    (hf : ∀ st b, proj (f st b) = proj st) :
    ∀ (l : List β) (st : CState), proj (l.foldl f st) = proj st := by
  intro l
  induction l with
  | nil => intro st; rfl
  | cons b t ih => intro st; rw [List.foldl_cons, ih, hf]

theorem pushTrace_flags (st : CState) (e : Ev) : flags (pushTrace st e) = flags st := rfl

theorem updateSurface_flags (env : Env) (st : CState) (k : String)
    (f : SurfaceRec → SurfaceRec) : flags (updateSurface env st k f) = flags st := by
  unfold updateSurface
  split <;> rfl

theorem cacheSurfaceContent_flags (env : Env) (st : CState) (k : String) (c : Content) :
    flags (cacheSurfaceContent env st k c) = flags st :=
  updateSurface_flags env st k _

theorem addMissingAttr_flags (st : CState) (a : String) :
    flags (addMissingAttr_ st a) = flags st := by
  unfold addMissingAttr_
  split <;> rfl

theorem cacheSurfaceRenderAttrs_flags (env : Env) (st : CState) (k : String) :
    flags (cacheSurfaceRenderAttrs_ env st k) = flags st := by
  unfold cacheSurfaceRenderAttrs_
  apply foldl_preserve
  intro st' a
  dsimp only
  split
  · rfl
  · exact addMissingAttr_flags _ a

theorem addSurface_flags (env : Env) (st : CState) (sid : String)
    (cfg : Option SurfaceRec) : flags (addSurface env st sid cfg) = flags st := by
  unfold addSurface
  rw [cacheSurfaceRenderAttrs_flags]
  split <;> rfl

theorem createPlaceholderSurface_flags (env : Env) (st : CState)
    (oid parentOpt : Option String) :
    flags (createPlaceholderSurface_ env st oid parentOpt).1 = flags st := by
  unfold createPlaceholderSurface_ generateSurfaceElementId_
  cases oid with
  | some i =>
    dsimp only
    split
    · rfl
    · exact addSurface_flags env st i _
  | none =>
    dsimp only
    split
    · rfl
    · exact addSurface_flags env _ _ _

theorem getSurfaceElement_flags (env : Env) (st : CState) (k : String) :
    flags (getSurfaceElement env st k).1 = flags st := by
  unfold getSurfaceElement
  split
  · rfl
  · exact updateSurface_flags env st k _

theorem expandScan_flags (env : Env)
    (recur : CState → Content → Option String → CState × Content)
    (hre : ∀ st c oid, flags (recur st c oid).1 = flags st) :
    ∀ (gas : Nat) (parent : Option String) (l : List Char) (st : CState),
      flags (expandScan env recur gas st parent l).1 = flags st := by
  intro gas
  induction gas with
  | zero => intro parent l st; rfl
  | succ g ih =>
    intro parent l st
    cases l with
    | nil => rfl
    | cons c rest =>
      cases hm : matchToken (c :: rest) with
      | none =>
        simp only [expandScan, hm]
        exact ih parent rest st
      | some v =>
        obtain ⟨idOpt, after⟩ := v
        simp only [expandScan, hm]
        rw [ih parent after]
        exact (hre _ _ _).trans
          ((updateSurface_flags env _ _ _).trans
            (createPlaceholderSurface_flags env st idOpt parent))

theorem replaceSurfacePlaceholders_flags (env : Env) :
    ∀ (fuel : Nat) (st : CState) (c : Content) (oid : Option String),
      flags (replaceSurfacePlaceholders_ env fuel st c oid).1 = flags st := by
  intro fuel
  induction fuel with
  | zero =>
    intro st c oid
    cases c with
    | str s =>
      simp only [replaceSurfacePlaceholders_]
      exact expandScan_flags env _ (fun _ _ _ => rfl) _ _ _ _
    | node i => simp [replaceSurfacePlaceholders_]
    | undef => simp [replaceSurfacePlaceholders_]
  | succ f ih =>
    intro st c oid
    cases c with
    | str s =>
      simp only [replaceSurfacePlaceholders_]
      exact expandScan_flags env _ (fun st' c' oid' => ih st' c' oid') _ _ _ _
    | node i => simp [replaceSurfacePlaceholders_]
    | undef => simp [replaceSurfacePlaceholders_]

theorem renderComponentSurface_flags (env : Env) (st : CState) (k : String)
    (c : Content) : flags (renderComponentSurface_ env st k c) = flags st := by
  unfold renderComponentSurface_
  dsimp only
  split_ifs <;> rfl

theorem replaceSurfaceContent_flags (env : Env) (fuel : Nat) (st : CState)
    (k : String) (c : Content) :
    flags (replaceSurfaceContent_ env fuel st k c) = flags st := by
  unfold replaceSurfaceContent_
  dsimp only
  split
  · split
    · rename_i e
      split
      · exact (pushTrace_flags _ _).trans ((updateSurface_flags _ _ _ _).trans
          ((replaceSurfacePlaceholders_flags env fuel _ _ _).trans
            ((getSurfaceElement_flags env _ k).trans (pushTrace_flags _ _))))
      · exact (updateSurface_flags _ _ _ _).trans
          ((replaceSurfacePlaceholders_flags env fuel _ _ _).trans
            ((getSurfaceElement_flags env _ k).trans (pushTrace_flags _ _)))
    · exact (updateSurface_flags _ _ _ _).trans
        ((replaceSurfacePlaceholders_flags env fuel _ _ _).trans
          ((getSurfaceElement_flags env _ k).trans (pushTrace_flags _ _)))
  · exact (pushTrace_flags _ _).trans ((pushTrace_flags _ _).trans
      ((replaceSurfacePlaceholders_flags env fuel _ _ _).trans
        ((getSurfaceElement_flags env _ k).trans (pushTrace_flags _ _))))

theorem rpscScan_flags (env : Env) (recur : CState → String → CState)
    (hre : ∀ st i, flags (recur st i) = flags st) :
    ∀ (gas : Nat) (pid : String) (l : List Char) (st : CState),
      flags (rpscScan env recur gas st pid l) = flags st := by
  intro gas
  induction gas with
  | zero => intro pid l st; rfl
  | succ g ih =>
    intro pid l st
    cases l with
    | nil => rfl
    | cons c rest =>
      cases hm : matchToken (c :: rest) with
      | none =>
        simp only [rpscScan, hm]
        exact ih pid rest st
      | some v =>
        obtain ⟨idOpt, after⟩ := v
        simp only [rpscScan, hm]
        rw [ih pid after]
        exact (hre _ _).trans (createPlaceholderSurface_flags env st idOpt (some pid))

theorem renderPlaceholderSurfaceContents_flags (env : Env)
    (recur : CState → String → CState)
    (hre : ∀ st i, flags (recur st i) = flags st)
    (st : CState) (c : Content) (k : String) :
    flags (renderPlaceholderSurfaceContents_ env recur st c k) = flags st := by
  unfold renderPlaceholderSurfaceContents_
  cases c with
  | str s => exact rpscScan_flags env recur hre _ _ _ _
  | node i => rfl
  | undef => rfl

theorem decorCachePre_flags (env : Env) (st : CState) (k : String) :
    flags (decorCachePre env st k) = flags st := by
  unfold decorCachePre
  exact (cacheSurfaceContent_flags _ _ _ _).trans (getSurfaceElement_flags _ _ _)

theorem cacheCompare_flags (env : Env) (st : CState) (k : String)
    (content cacheContent : Content) :
    flags (cacheCompare env st k content cacheContent).1 = flags st := by
  unfold cacheCompare
  dsimp only
  split_ifs <;>
    simp only [pushTrace_flags, cacheSurfaceContent_flags, decorCachePre_flags]

theorem renderSurfaceContent_flags (env : Env) :
    ∀ (fuel : Nat) (st : CState) (k : String) (oc occ : Content),
      flags (renderSurfaceContent env fuel st k oc occ) = flags st := by
  intro fuel
  induction fuel with
  | zero =>
    intro st k oc occ
    rw [renderSurfaceContent]
    split
    · rfl
    · split
      · exact renderComponentSurface_flags env st k oc
      · dsimp only
        split_ifs <;>
          first
          | rfl
          | exact (renderPlaceholderSurfaceContents_flags env (fun st _ => st)
                (fun _ _ => rfl) _ _ _).trans
              ((pushTrace_flags _ _).trans (cacheCompare_flags env st k _ _))
          | exact (renderPlaceholderSurfaceContents_flags env (fun st _ => st)
                (fun _ _ => rfl) _ _ _).trans
              (cacheCompare_flags env st k _ _)
          | exact (replaceSurfaceContent_flags env _ _ _ _).trans
              ((pushTrace_flags _ _).trans (cacheCompare_flags env st k _ _))
  | succ f ih =>
    intro st k oc occ
    rw [renderSurfaceContent]
    split
    · rfl
    · split
      · exact renderComponentSurface_flags env st k oc
      · dsimp only
        split_ifs <;>
          first
          | rfl
          | exact (renderPlaceholderSurfaceContents_flags env
                (fun st' i => renderSurfaceContent env f st' i .undef .undef)
                (fun st' i => ih st' i .undef .undef) _ _ _).trans
              ((pushTrace_flags _ _).trans (cacheCompare_flags env st k _ _))
          | exact (renderPlaceholderSurfaceContents_flags env
                (fun st' i => renderSurfaceContent env f st' i .undef .undef)
                (fun st' i => ih st' i .undef .undef) _ _ _).trans
              (cacheCompare_flags env st k _ _)
          | exact (replaceSurfaceContent_flags env _ _ _ _).trans
              ((pushTrace_flags _ _).trans (cacheCompare_flags env st k _ _))

theorem updatePlaceholderSurface_flags (env : Env) (fuel : Nat) (st : CState)
    (cd : Collected) : flags (updatePlaceholderSurface_ env fuel st cd) = flags st := by
  unfold updatePlaceholderSurface_
  dsimp only
  split
  · exact pushTrace_flags _ _
  · split_ifs <;>
      first
      | exact (renderSurfaceContent_flags env fuel _ _ _ _).trans
          ((pushTrace_flags _ _).trans
            ((getSurfaceElement_flags _ _ _).trans (pushTrace_flags _ _)))
      | exact (renderSurfaceContent_flags env fuel _ _ _ _).trans (pushTrace_flags _ _)
      | exact (pushTrace_flags _ _).trans
          ((cacheSurfaceContent_flags _ _ _ _).trans
            ((updateSurface_flags _ _ _ _).trans
              ((pushTrace_flags _ _).trans
                ((getSurfaceElement_flags _ _ _).trans (pushTrace_flags _ _)))))
      | exact (pushTrace_flags _ _).trans
          ((cacheSurfaceContent_flags _ _ _ _).trans
            ((updateSurface_flags _ _ _ _).trans (pushTrace_flags _ _)))

theorem updatePlaceholderSurfaces_flags (env : Env) (fuel : Nat) (st : CState) :
    flags (updatePlaceholderSurfaces_ env fuel st) = flags st := by
  unfold updatePlaceholderSurfaces_
  dsimp only
  rw [show ∀ x : CState, flags {x with collected := []} = flags x from fun _ => rfl]
  apply foldl_preserve
  intro st' cd
  exact (updateSurface_flags _ _ _ _).trans (updatePlaceholderSurface_flags env fuel st' cd)

theorem renderSurfacesContent_flags (env : Env) (fuel : Nat) (st : CState)
    (keys : List String) :
    flags (renderSurfacesContent_ env fuel st keys) = flags st := by
  unfold renderSurfacesContent_
  dsimp only
  have hfold : ∀ (l : List String) (x : CState),
      flags (l.foldl (fun st k =>
        if ((getSurface env st k).map (·.handled)).getD false then st
        else renderSurfaceContent env fuel st k .undef .undef) x) = flags x := by
    apply foldl_preserve
    intro x k
    split
    · rfl
    · exact renderSurfaceContent_flags env fuel x k .undef .undef
  split
  · exact (pushTrace_flags _ _).trans
      ((updatePlaceholderSurfaces_flags env fuel _).trans
        ((hfold keys _).trans rfl))
  · exact (hfold keys _).trans rfl

theorem rpscScan_no_token (env : Env) (recur : CState → String → CState)
    (pid : String) :
    ∀ (gas : Nat) (l : List Char) (st : CState), hasToken l = false →
      rpscScan env recur gas st pid l = st := by
  intro gas
  induction gas with
  | zero => intro l st _; rfl
  | succ g ih =>
    intro l st h
    cases l with
    | nil => rfl
    | cons c rest =>
      rw [hasToken] at h
      cases hm : matchToken (c :: rest) with
      | some v => rw [hm] at h; simp at h
      | none =>
        rw [hm] at h
        simp only [Option.isSome_none, Bool.false_or] at h
        simp only [rpscScan, hm]
        exact ih rest st h

theorem inDocument_of_flags {a b : CState} (h : flags a = flags b) :
    a.inDocument = b.inDocument := congrArg (fun p => p.2.1) h

theorem wasRendered_of_flags {a b : CState} (h : flags a = flags b) :
    a.wasRendered = b.wasRendered := congrArg (fun p => p.2.2) h

theorem attach_inDocument_true (env : Env) (fuel : Nat) (st : CState) :
    (attach env fuel st).inDocument = true := by
  unfold attach
  split
  · assumption
  · dsimp only
    split
    · rfl
    · rw [show ∀ (x : CState) (e : Ev), (pushTrace x e).inDocument = x.inDocument
        from fun _ _ => rfl]
      rw [inDocument_of_flags (updatePlaceholderSurfaces_flags env fuel _)]

theorem attach_wasRendered (env : Env) (fuel : Nat) (st : CState) :
    (attach env fuel st).wasRendered = st.wasRendered := by
  unfold attach
  split
  · rfl
  · dsimp only
    split
    · rfl
    · rw [show ∀ (x : CState) (e : Ev), (pushTrace x e).wasRendered = x.wasRendered
        from fun _ _ => rfl]
      rw [wasRendered_of_flags (updatePlaceholderSurfaces_flags env fuel _)]
      rfl

theorem detach_wasRendered (st : CState) : (detach st).wasRendered = st.wasRendered := by
  unfold detach
  split <;> rfl

/-! ## C1: terminal entry modes -/

/-- Whether an `Except` result carries a value (no error was raised). -/
def exceptOk (x : Except String CState) : Bool :=
  match x with
  | .ok _ => true
  | .error _ => false

/-- A minimal component environment for the lifecycle scenarios. -/
def envLife : Env := { compId := "c" }

/-- C1 counterexample: on a fresh instance, `render()` completes, `detach()`
removes it from the document, and a subsequent `decorate()` does NOT raise
`AlreadyRendered` (its guard checks `inDocument`, not `wasRendered`), contrary
to the claim that any later `render()`/`decorate()` call raises. -/
theorem decorate_after_detach_not_guarded :
    exceptOk (render envLife 3 {}) = true ∧
    exceptOk
      (match render envLife 3 {} with
       | .ok s1 => decorate envLife 3 (detach s1)
       | .error e => .error e) = true := by
  constructor
  · rfl
  · rfl

/-- C1 (amended): after one completed `render()` or `decorate()`, a later
`render()` always raises `AlreadyRendered` synchronously with no state
change (`wasRendered` is set by both flows and never reset, also not by
`attach`/`detach` cycles), and a later `decorate()` raises `AlreadyRendered`
exactly while the instance is attached (`inDocument` — which holds right
after either flow completes, but is cleared again by `detach`). -/
theorem lifecycle_terminal_guards (env : Env) (fuel : Nat) (st st' : CState) :
    (st.wasRendered = true → render env fuel st = .error ALREADY_RENDERED) ∧
    (st.inDocument = true → decorate env fuel st = .error ALREADY_RENDERED) ∧
    (render env fuel st = .ok st' → st'.wasRendered = true ∧ st'.inDocument = true) ∧
    (decorate env fuel st = .ok st' → st'.wasRendered = true ∧ st'.inDocument = true) ∧
    (attach env fuel st).wasRendered = st.wasRendered ∧
    (detach st).wasRendered = st.wasRendered := by
  refine ⟨?_, ?_, ?_, ?_, attach_wasRendered env fuel st, detach_wasRendered st⟩
  · intro h
    unfold render
    simp [h]
  · intro h
    unfold decorate
    simp [h]
  · intro h
    unfold render at h
    split at h
    · exact absurd h (by simp)
    · simp only [Except.ok.injEq] at h
      subst h
      exact ⟨rfl, attach_inDocument_true env fuel _⟩
  · intro h
    unfold decorate at h
    split at h
    · exact absurd h (by simp)
    · simp only [Except.ok.injEq] at h
      subst h
      refine ⟨rfl, ?_⟩
      show (attach env fuel _).inDocument = true
      exact attach_inDocument_true env fuel _

/-- The state after a first successful `render()` on a fresh instance. -/
def c1Rendered : CState :=
  match render envLife 3 {} with
  | .ok s => s
  | .error _ => {}

/-- The state after a first successful `decorate()` on a fresh instance. -/
def c1Decorated : CState :=
  match decorate envLife 3 {} with
  | .ok s => s
  | .error _ => {}

theorem lifecycle_terminal_guards_witness :
    render envLife 3 c1Rendered = .error ALREADY_RENDERED ∧
    decorate envLife 3 c1Rendered = .error ALREADY_RENDERED ∧
    (c1Rendered.wasRendered = true ∧ c1Rendered.inDocument = true) ∧
    (c1Decorated.wasRendered = true ∧ c1Decorated.inDocument = true) :=
  ⟨(lifecycle_terminal_guards envLife 3 c1Rendered {}).1 (by rfl),
   (lifecycle_terminal_guards envLife 3 c1Rendered {}).2.1 (by rfl),
   (lifecycle_terminal_guards envLife 3 {} c1Rendered).2.2.1 (by rfl),
   (lifecycle_terminal_guards envLife 3 {} c1Decorated).2.2.2.1 (by rfl)⟩

/-! ## C3: the cache-state comparison -/

/-- C3: `compareCacheStates_(current, previous)` returns true iff neither
argument equals `NOT_INITIALIZED` nor `NOT_CACHEABLE` and the two are equal.
As a Lean function of exactly its two arguments it is pure, total and
deterministic. -/
theorem compareCacheStates_spec (current previous : Int) :
    compareCacheStates_ current previous = true ↔
      (current ≠ NOT_INITIALIZED ∧ current ≠ NOT_CACHEABLE ∧
       previous ≠ NOT_INITIALIZED ∧ previous ≠ NOT_CACHEABLE ∧
       current = previous) := by
  unfold compareCacheStates_ NOT_INITIALIZED NOT_CACHEABLE
  simp only [Bool.and_eq_true, bne_iff_ne, beq_iff_eq, ne_eq]
  constructor
  · rintro ⟨⟨h1, h2⟩, h3⟩
    subst h3
    exact ⟨h1, h2, h1, h2, rfl⟩
  · rintro ⟨h1, h2, -, -, h5⟩
    exact ⟨⟨h1, h2⟩, h5⟩

/-! ## C7: non-string content is never cacheable -/

/-- C7: `computeSurfaceCacheState_` maps every non-string value to the
`NOT_CACHEABLE` sentinel, and a current state of `NOT_CACHEABLE` can never
compare as a hit, so non-string surface content is always treated as changed
and never raises. -/
theorem non_string_never_cache_hit (env : Env) (v : Content) (p : Int)
    (h : v.isStr = false) :
    computeSurfaceCacheState_ env v = NOT_CACHEABLE ∧
    compareCacheStates_ (computeSurfaceCacheState_ env v) p = false := by
  have hc : computeSurfaceCacheState_ env v = NOT_CACHEABLE := by
    cases v with
    | str s => simp [Content.isStr] at h
    | node i => rfl
    | undef => rfl
  refine ⟨hc, ?_⟩
  rw [hc]
  unfold compareCacheStates_ NOT_CACHEABLE NOT_INITIALIZED
  simp

theorem non_string_never_cache_hit_witness :
    computeSurfaceCacheState_ { compId := "c" } (.node "x") = NOT_CACHEABLE ∧
    compareCacheStates_ (computeSurfaceCacheState_ { compId := "c" } (.node "x")) 7
      = false :=
  non_string_never_cache_hit { compId := "c" } (.node "x") 7 rfl

/-! ## C10: addSurface stamps NOT_INITIALIZED -/

theorem cacheSurfaceRenderAttrs_surfaces (env : Env) (st : CState) (k : String) :
    (cacheSurfaceRenderAttrs_ env st k).surfaces = st.surfaces := by
  unfold cacheSurfaceRenderAttrs_
  apply foldl_preserve
  intro st' a
  dsimp only
  split
  · rfl
  · unfold addMissingAttr_
    split <;> rfl

/-- C10: `addSurface` overwrites the supplied configuration's `cacheState`
with `NOT_INITIALIZED` before registering it under the resolved element id
(the JS even mutates the caller's config object in place), so every newly or
re-registered surface starts from `NOT_INITIALIZED`, and a comparison against
`NOT_INITIALIZED` is never a hit. -/
theorem addSurface_resets_cacheState (env : Env) (st : CState) (surfaceId : String)
    (config : SurfaceRec) (current : Int) :
    alGet (addSurface env st surfaceId (some config)).surfaces
        (getSurfaceElementId_ env surfaceId (some {config with cacheState := NOT_INITIALIZED}))
      = some {config with cacheState := NOT_INITIALIZED} ∧
    compareCacheStates_ current NOT_INITIALIZED = false := by
  constructor
  · unfold addSurface
    dsimp only [Option.getD_some]
    rw [cacheSurfaceRenderAttrs_surfaces]
    split
    · exact alGet_alSet_self _ _ _
    · exact alGet_alSet_self _ _ _
  · unfold compareCacheStates_ NOT_INITIALIZED NOT_CACHEABLE
    by_cases h : current = -2
    · simp [h]
    · simp [h]

/-! ## C6: expansion is a no-op on token-free content -/

/-- C6: `replaceSurfacePlaceholders_` returns non-string content unchanged,
and returns any string with no `SURFACE_REGEX` match unchanged; in both cases
the state is untouched — no surface is registered and nothing is appended to
`collectedSurfaces_`. -/
theorem expand_no_op_on_plain_content (env : Env) (fuel : Nat) (st : CState)
    (optId : Option String) :
    (∀ c : Content, c.isStr = false →
        replaceSurfacePlaceholders_ env fuel st c optId = (st, c)) ∧
    (∀ s : String, hasToken s.data = false →
        replaceSurfacePlaceholders_ env fuel st (.str s) optId = (st, .str s)) :=
  ⟨fun c h => replaceSurfacePlaceholders_non_string env fuel st c optId h,
   fun s h => replaceSurfacePlaceholders_no_token env fuel st s optId h⟩

/-- A minimal environment for the no-op expansion witness. -/
def envC6 : Env := { compId := "c" }

theorem expand_no_op_on_plain_content_witness :
    replaceSurfacePlaceholders_ envC6 3 {} (.node "x") none = ({}, .node "x") ∧
    replaceSurfacePlaceholders_ envC6 3 {} (.str "plain text") none
      = ({}, .str "plain text") :=
  ⟨(expand_no_op_on_plain_content envC6 3 {} none).1 (.node "x") rfl,
   (expand_no_op_on_plain_content envC6 3 {} none).2 "plain text" (by decide)⟩

/-! ## C2: post-order discovery, reverse-order finalization -/

/-- Environment for the nested-placeholder scenario: surface `A`'s content
contains `B`'s placeholder, `B`'s contains `C`'s, `C` is plain. -/
def envC2 : Env :=
  { compId := "c",
    getSurfaceContent := fun sid _ =>
      if sid = "A" then .str "a[%%%%~s-B~%%%%]"
      else if sid = "B" then .str "b[%%%%~s-C~%%%%]"
      else if sid = "C" then .str "c"
      else .undef }

/-- The expansion pass over content containing surface `A`'s placeholder. -/
def c2Expansion : CState × Content :=
  replaceSurfacePlaceholders_ envC2 10 {} (.str "x%%%%~s-A~%%%%y") none

/-! ## C9: undefined/null surface content is skipped -/

/-- C9: for a registered non-component surface, when neither the explicit
content argument (JS `||` treats falsy values as absent) nor the owning
component's content provider yields a defined non-null value,
`renderSurfaceContent` returns the state exactly unchanged — no cache write,
no listener attachment, no DOM event, and no error. -/
theorem skip_undefined_surface_content (env : Env) (fuel : Nat) (st : CState)
    (k : String) (surf : SurfaceRec) (optContent optCacheContent : Content)
    (hget : getSurface env st k = some surf)
    (hcomp : surf.componentName = none)
    (hoc : optContent.isTruthy = false)
    (hprov : getSurfaceContent_ env st k = .undef) :
    renderSurfaceContent env fuel st k optContent optCacheContent = st := by
  cases fuel with
  | zero =>
    rw [renderSurfaceContent, hget]
    simp only [hcomp, hoc, hprov, Option.getD_none, bne_self_eq_false, Bool.false_eq_true,
      if_false, Content.isDefAndNotNull]
  | succ f =>
    rw [renderSurfaceContent, hget]
    simp only [hcomp, hoc, hprov, Option.getD_none, bne_self_eq_false, Bool.false_eq_true,
      if_false, Content.isDefAndNotNull]

/-- Environment and state for the skipped-content witness. -/
def envC9 : Env := { compId := "c" }

/-- A component with one registered plain surface and no content provider. -/
def stC9 : CState := addSurface envC9 {} "s1" none

theorem skip_undefined_surface_content_witness :
    renderSurfaceContent envC9 3 stC9 "c-s1" .undef .undef = stC9 :=
  skip_undefined_surface_content envC9 3 stC9 "c-s1" {} .undef .undef
    (by decide) rfl rfl (by decide)

/-! ## C8: surface element id resolution -/

theorem hasComponentPrefix_iff (env : Env) (sid : String) :
    hasComponentPrefix_ env sid = true ↔ (env.compId ++ "-").data <+: sid.data := by
  unfold hasComponentPrefix_
  rw [beq_iff_eq, List.prefix_iff_eq_take, String.ext_iff, String.data_take]
  have hlen : (env.compId ++ "-").data.length = env.compId.length + 1 := by
    rw [String.data_append, List.length_append]
    rfl
  rw [hlen]
  exact eq_comm

/-- C8 counterexample: a surface whose configuration carries `componentName`
(but no explicit `surfaceElementId`) resolves to the bare local id even
though neither of the claim's two exceptions applies — the local id has no
owner prefix, yet the result is not `ownerId-localId`. -/
theorem component_surface_id_not_prefixed :
    getSurfaceElementId_ { compId := "c" } "foo" (some {componentName := some "W"})
      = "foo" ∧
    ({componentName := some "W"} : SurfaceRec).surfaceElementId = none ∧
    hasComponentPrefix_ { compId := "c" } "foo" = false ∧
    ("foo" : String) ≠ prefixSurfaceId_ { compId := "c" } "foo" := by decide

/-- C8 (amended): the surface element id is `ownerId-localId`, except that an
explicit (truthy) `surfaceElementId` from the configuration is used verbatim,
and a local id that already starts with the owner id followed by a dash, or a
surface that is component-backed (truthy `componentName`), keeps the local id
unchanged. -/
theorem surface_element_id_resolution (env : Env) (sid : String) (surf : SurfaceRec) :
    ((surf.surfaceElementId.getD "") ≠ "" →
        getSurfaceElementId_ env sid (some surf) = surf.surfaceElementId.getD "") ∧
    ((surf.surfaceElementId.getD "") = "" → (surf.componentName.getD "") = "" →
      ¬ (env.compId ++ "-").data <+: sid.data →
        getSurfaceElementId_ env sid (some surf) = env.compId ++ "-" ++ sid) ∧
    ((surf.surfaceElementId.getD "") = "" →
      ((surf.componentName.getD "") ≠ "" ∨ (env.compId ++ "-").data <+: sid.data) →
        getSurfaceElementId_ env sid (some surf) = sid) := by
  refine ⟨?_, ?_, ?_⟩
  · intro h
    unfold getSurfaceElementId_
    simp [h]
  · intro h1 h2 h3
    rw [← hasComponentPrefix_iff] at h3
    have hp : hasComponentPrefix_ env sid = false := by
      cases hb : hasComponentPrefix_ env sid
      · rfl
      · exact absurd hb h3
    unfold getSurfaceElementId_ prefixSurfaceId_
    simp [h1, h2, hp]
  · intro h1 h2
    have hc : (surf.componentName.getD "" != "" || hasComponentPrefix_ env sid) = true := by
      rcases h2 with h2 | h2
      · simp [h2]
      · simp [(hasComponentPrefix_iff env sid).mpr h2]
    unfold getSurfaceElementId_
    simp [h1, hc]

theorem surface_element_id_resolution_witness :
    getSurfaceElementId_ { compId := "c" } "x" (some {surfaceElementId := some "full-id"})
      = "full-id" ∧
    getSurfaceElementId_ { compId := "c" } "foo" (some {}) = "c" ++ "-" ++ "foo" ∧
    getSurfaceElementId_ { compId := "c" } "c-bar" (some {}) = "c-bar" :=
  ⟨(surface_element_id_resolution { compId := "c" } "x"
      {surfaceElementId := some "full-id"}).1 (by decide),
   (surface_element_id_resolution { compId := "c" } "foo" {}).2.1
      (by decide) (by decide) (by decide),
   (surface_element_id_resolution { compId := "c" } "c-bar" {}).2.2
      (by decide) (Or.inr (by decide))⟩

/-! ## Helper lemmas: surface lookups across updates -/

theorem updateSurface_trace (env : Env) (st : CState) (k : String)
    (f : SurfaceRec → SurfaceRec) : (updateSurface env st k f).trace = st.trace := by
  unfold updateSurface
  split <;> rfl

theorem cacheSurfaceContent_trace (env : Env) (st : CState) (k : String) (c : Content) :
    (cacheSurfaceContent env st k c).trace = st.trace :=
  updateSurface_trace env st k _

theorem getSurface_updateSurface_self (env : Env) (st : CState) (k : String)
    (f : SurfaceRec → SurfaceRec) (h : resolveSurfaceKey env st k = some k) :
    getSurface env (updateSurface env st k f) k = (getSurface env st k).map f ∧
    resolveSurfaceKey env (updateSurface env st k f) k = some k := by
  have hupd : updateSurface env st k f
      = {st with surfaces := alUpdate st.surfaces k f} := by
    unfold updateSurface
    rw [h]
  rw [hupd]
  unfold resolveSurfaceKey at h ⊢
  unfold getSurface
  dsimp only at h ⊢
  cases hk1 : alGet st.surfaces (getSurfaceElementId_ env k) with
  | some v =>
    rw [hk1] at h
    simp only [Option.isSome_some, if_true] at h
    have hkk : getSurfaceElementId_ env k = k := by
      simpa using h
    rw [hkk] at hk1 ⊢
    simp only [alGet_alUpdate_self, hk1]
    simp
  | none =>
    rw [hk1] at h
    simp only [Option.isSome_none, Bool.false_eq_true, if_false] at h
    cases hk : alGet st.surfaces k with
    | none => rw [hk] at h; simp at h
    | some w =>
      have hne : getSurfaceElementId_ env k ≠ k := by
        intro he
        rw [he, hk] at hk1
        exact Option.noConfusion hk1
      rw [alGet_alUpdate_ne _ _ _ _ hne, hk1]
      simp only [alGet_alUpdate_self, hk]
      simp

theorem compareCacheStates_self (c : Int) (h1 : c ≠ NOT_CACHEABLE)
    (h2 : c ≠ NOT_INITIALIZED) : compareCacheStates_ c c = true := by
  have h1n : c ≠ -1 := by simpa [NOT_CACHEABLE] using h1
  have h2n : c ≠ -2 := by simpa [NOT_INITIALIZED] using h2
  unfold compareCacheStates_ NOT_CACHEABLE NOT_INITIALIZED
  simp [h1n, h2n]

theorem decorating_of_flags {a b : CState} (h : flags a = flags b) :
    a.decorating = b.decorating := congrArg (fun p => p.1) h

theorem renderSurfaceContent_plain_call (env : Env) (fuel : Nat) (st : CState)
    (k : String) (surf : SurfaceRec) (s : String)
    (hres : resolveSurfaceKey env st k = some k)
    (hget : getSurface env st k = some surf)
    (hcomp : surf.componentName = none)
    (hdec : st.decorating = false)
    (hs : s ≠ "")
    (hnt : hasToken s.data = false) :
    renderSurfaceContent env fuel st k (.str s) .undef =
      (if compareCacheStates_ (computeSurfaceCacheState_ env (.str s)) surf.cacheState then
        pushTrace (cacheSurfaceContent env st k (.str s))
          (.cacheCheck k (computeSurfaceCacheState_ env (.str s)) surf.cacheState true)
      else
        replaceSurfaceContent_ env fuel
          (pushTrace
            (pushTrace (cacheSurfaceContent env st k (.str s))
              (.cacheCheck k (computeSurfaceCacheState_ env (.str s)) surf.cacheState false))
            (.attachListeners (.str s) k))
          k (.str s)) := by
  have hcomp' : (surf.componentName.getD "" != "") = false := by simp [hcomp]
  have hstru : (Content.str s).isTruthy = true := by simp [Content.isTruthy, hs]
  have hprev : surfCacheState env st k = surf.cacheState := by
    unfold surfCacheState
    rw [hget]
    rfl
  have hcur : surfCacheState env (cacheSurfaceContent env st k (.str s)) k
      = computeSurfaceCacheState_ env (.str s) := by
    unfold surfCacheState cacheSurfaceContent
    rw [(getSurface_updateSurface_self env st k _ hres).1, hget]
    rfl
  have hdec2 : (cacheSurfaceContent env st k (Content.str s)).decorating = false := by
    rw [decorating_of_flags (cacheSurfaceContent_flags env st k _), hdec]
  have hcc : cacheCompare env st k (.str s) (.str s)
      = (pushTrace (cacheSurfaceContent env st k (.str s))
          (.cacheCheck k (computeSurfaceCacheState_ env (.str s)) surf.cacheState
            (compareCacheStates_ (computeSurfaceCacheState_ env (.str s)) surf.cacheState)),
         compareCacheStates_ (computeSurfaceCacheState_ env (.str s)) surf.cacheState) := by
    unfold cacheCompare
    simp only [hdec, Bool.false_eq_true, if_false, hdec2, hprev, hcur]
  cases fuel with
  | zero =>
    rw [renderSurfaceContent, hget]
    simp only [hcomp', Bool.false_eq_true, if_false, hstru, if_true,
      show (Content.undef).isTruthy = false from rfl,
      show (Content.str s).isDefAndNotNull = true from rfl, hcc]
    cases hhit : compareCacheStates_ (computeSurfaceCacheState_ env (.str s)) surf.cacheState with
    | true =>
      simp only [eq_self_iff_true, if_true]
      rw [show (pushTrace (cacheSurfaceContent env st k (Content.str s))
          (Ev.cacheCheck k (computeSurfaceCacheState_ env (Content.str s)) surf.cacheState
            true)).decorating = false from hdec2]
      simp only [Bool.false_eq_true, if_false]
      unfold renderPlaceholderSurfaceContents_
      exact rpscScan_no_token env _ k _ s.data _ hnt
    | false =>
      simp only [Bool.false_eq_true, if_false]
  | succ f =>
    rw [renderSurfaceContent, hget]
    simp only [hcomp', Bool.false_eq_true, if_false, hstru, if_true,
      show (Content.undef).isTruthy = false from rfl,
      show (Content.str s).isDefAndNotNull = true from rfl, hcc]
    cases hhit : compareCacheStates_ (computeSurfaceCacheState_ env (.str s)) surf.cacheState with
    | true =>
      simp only [eq_self_iff_true, if_true]
      rw [show (pushTrace (cacheSurfaceContent env st k (Content.str s))
          (Ev.cacheCheck k (computeSurfaceCacheState_ env (Content.str s)) surf.cacheState
            true)).decorating = false from hdec2]
      simp only [Bool.false_eq_true, if_false]
      unfold renderPlaceholderSurfaceContents_
      exact rpscScan_no_token env _ k _ s.data _ hnt
    | false =>
      simp only [Bool.false_eq_true, if_false]

/-- A registered non-component surface reachable under its own key `k`, with
stored cache state `cs`, on a non-decorating instance. -/
def plainSurfaceAt (env : Env) (st : CState) (k : String) (cs : Int) : Prop :=
  resolveSurfaceKey env st k = some k ∧
  (getSurface env st k).map (fun r => r.componentName) = some none ∧
  (getSurface env st k).map (fun r => r.cacheState) = some cs ∧
  st.decorating = false

theorem plainSurfaceAt_pushTrace (env : Env) (st : CState) (e : Ev) (k : String)
    (cs : Int) (h : plainSurfaceAt env st k cs) :
    plainSurfaceAt env (pushTrace st e) k cs := h

theorem plainSurfaceAt_update_elem (env : Env) (st : CState) (k : String) (cs : Int)
    (f : SurfaceRec → SurfaceRec)
    (hf : ∀ r, (f r).componentName = r.componentName ∧ (f r).cacheState = r.cacheState)
    (h : plainSurfaceAt env st k cs) :
    plainSurfaceAt env (updateSurface env st k f) k cs := by
  obtain ⟨h1, h2, h3, h4⟩ := h
  have hu := getSurface_updateSurface_self env st k f h1
  refine ⟨hu.2, ?_, ?_, ?_⟩
  · rw [hu.1]
    cases hg : getSurface env st k with
    | none => rw [hg] at h2; simp at h2
    | some r =>
      rw [hg] at h2
      simp only [Option.map_some'] at h2 ⊢
      rw [(hf r).1]
      exact h2
  · rw [hu.1]
    cases hg : getSurface env st k with
    | none => rw [hg] at h3; simp at h3
    | some r =>
      rw [hg] at h3
      simp only [Option.map_some'] at h3 ⊢
      rw [(hf r).2]
      exact h3
  · rw [decorating_of_flags (updateSurface_flags env st k f)]
    exact h4

theorem plainSurfaceAt_cache (env : Env) (st : CState) (k : String) (surf : SurfaceRec)
    (c : Content)
    (hres : resolveSurfaceKey env st k = some k)
    (hget : getSurface env st k = some surf)
    (hcomp : surf.componentName = none)
    (hdec : st.decorating = false) :
    plainSurfaceAt env (cacheSurfaceContent env st k c) k
      (computeSurfaceCacheState_ env c) := by
  unfold cacheSurfaceContent
  have hu := getSurface_updateSurface_self env st k
    (fun s => {s with cacheState := computeSurfaceCacheState_ env c}) hres
  refine ⟨hu.2, ?_, ?_, ?_⟩
  · rw [hu.1, hget]
    simp [hcomp]
  · rw [hu.1, hget]
    simp
  · rw [decorating_of_flags (updateSurface_flags env st k _)]
    exact hdec

theorem plainSurfaceAt_replaceSurfaceContent (env : Env) (fuel : Nat) (st : CState)
    (k : String) (cs : Int) (s : String)
    (hnt : hasToken s.data = false) (h : plainSurfaceAt env st k cs) :
    plainSurfaceAt env (replaceSurfaceContent_ env fuel st k (.str s)) k cs := by
  unfold replaceSurfaceContent_
  dsimp only
  have h0 : plainSurfaceAt env (pushTrace st (.replaceSurface k)) k cs :=
    plainSurfaceAt_pushTrace env st _ k cs h
  have hel : plainSurfaceAt env (getSurfaceElement env (pushTrace st (.replaceSurface k)) k).1 k cs := by
    unfold getSurfaceElement
    cases he : surfaceElementRef env (pushTrace st (.replaceSurface k)) k with
    | none => exact h0
    | some e =>
      exact plainSurfaceAt_update_elem env _ k cs _ (fun r => ⟨rfl, rfl⟩) h0
  rw [replaceSurfacePlaceholders_no_token env fuel _ s (some k) hnt]
  split
  · split
    · split
      · apply plainSurfaceAt_pushTrace
        apply plainSurfaceAt_update_elem env _ k cs _ _ hel
        intro r
        exact ⟨rfl, rfl⟩
      · apply plainSurfaceAt_update_elem env _ k cs _ _ hel
        intro r
        exact ⟨rfl, rfl⟩
    · apply plainSurfaceAt_update_elem env _ k cs _ _ hel
      intro r
      exact ⟨rfl, rfl⟩
  · exact plainSurfaceAt_pushTrace env _ _ k cs
      (plainSurfaceAt_pushTrace env _ _ k cs hel)

theorem renderSurfaceContent_plain_establishes (env : Env) (fuel : Nat) (st : CState)
    (k : String) (surf : SurfaceRec) (s : String)
    (hres : resolveSurfaceKey env st k = some k)
    (hget : getSurface env st k = some surf)
    (hcomp : surf.componentName = none)
    (hdec : st.decorating = false)
    (hs : s ≠ "")
    (hnt : hasToken s.data = false) :
    plainSurfaceAt env (renderSurfaceContent env fuel st k (.str s) .undef) k
      (computeSurfaceCacheState_ env (.str s)) := by
  rw [renderSurfaceContent_plain_call env fuel st k surf s hres hget hcomp hdec hs hnt]
  have hbase := plainSurfaceAt_cache env st k surf (.str s) hres hget hcomp hdec
  split
  · exact plainSurfaceAt_pushTrace env _ _ k _ hbase
  · exact plainSurfaceAt_replaceSurfaceContent env fuel _ k _ s hnt
      (plainSurfaceAt_pushTrace env _ _ k _ (plainSurfaceAt_pushTrace env _ _ k _ hbase))

/-- C4 (amended): re-rendering a non-component surface twice in a row with
byte-identical, placeholder-free string content and no attribute change is a
cache hit the second time, provided the content's polynomial hash is not one
of the two cache sentinels: the second invocation appends exactly one
`cacheCheck` hit event — in particular it performs zero DOM subtree
replacement for that surface (`replaceSurfaceContent_` is not reached, no
`domReplace`/`domRemoveChildren`/`domAppend` is emitted). -/
theorem repeat_render_surface_cache_hit (env : Env) (fuel fuel2 : Nat) (st : CState)
    (k : String) (surf : SurfaceRec) (s : String)
    (hres : resolveSurfaceKey env st k = some k)
    (hget : getSurface env st k = some surf)
    (hcomp : surf.componentName = none)
    (hdec : st.decorating = false)
    (hs : s ≠ "")
    (hnt : hasToken s.data = false)
    (hh1 : computeSurfaceCacheState_ env (.str s) ≠ NOT_CACHEABLE)
    (hh2 : computeSurfaceCacheState_ env (.str s) ≠ NOT_INITIALIZED) :
    (renderSurfaceContent env fuel2 (renderSurfaceContent env fuel st k (.str s) .undef)
        k (.str s) .undef).trace
      = (renderSurfaceContent env fuel st k (.str s) .undef).trace
          ++ [.cacheCheck k (computeSurfaceCacheState_ env (.str s))
                (computeSurfaceCacheState_ env (.str s)) true] ∧
    ∀ e ∈ (renderSurfaceContent env fuel2 (renderSurfaceContent env fuel st k (.str s) .undef)
        k (.str s) .undef).trace.drop
          (renderSurfaceContent env fuel st k (.str s) .undef).trace.length,
      e ≠ .replaceSurface k ∧ e ≠ .domReplace k ∧
      e ≠ .domRemoveChildren k ∧ e ≠ .domAppend k := by
  set st1 := renderSurfaceContent env fuel st k (.str s) .undef with hst1
  have hplain := renderSurfaceContent_plain_establishes env fuel st k surf s
    hres hget hcomp hdec hs hnt
  rw [← hst1] at hplain
  obtain ⟨h1, h2, h3, h4⟩ := hplain
  cases hg1 : getSurface env st1 k with
  | none => rw [hg1] at h2; simp at h2
  | some surf1 =>
    rw [hg1] at h2 h3
    simp only [Option.map_some'] at h2 h3
    have hcomp1 : surf1.componentName = none := by simpa using h2
    have hcs1 : surf1.cacheState = computeSurfaceCacheState_ env (.str s) := by
      simpa using h3
    have hcall2 := renderSurfaceContent_plain_call env fuel2 st1 k surf1 s
      h1 hg1 hcomp1 h4 hs hnt
    rw [hcs1, compareCacheStates_self _ hh1 hh2] at hcall2
    simp only [if_true] at hcall2
    constructor
    · rw [hcall2]
      show (cacheSurfaceContent env st1 k (.str s)).trace ++ _ = _
      rw [cacheSurfaceContent_trace]
    · intro e he
      rw [hcall2] at he
      have htr : (pushTrace (cacheSurfaceContent env st1 k (.str s))
          (.cacheCheck k (computeSurfaceCacheState_ env (.str s))
            (computeSurfaceCacheState_ env (.str s)) true)).trace
          = st1.trace ++ [.cacheCheck k (computeSurfaceCacheState_ env (.str s))
              (computeSurfaceCacheState_ env (.str s)) true] := by
        show (cacheSurfaceContent env st1 k (.str s)).trace ++ _ = _
        rw [cacheSurfaceContent_trace]
      rw [htr, List.drop_left] at he
      simp only [List.mem_singleton] at he
      subst he
      refine ⟨?_, ?_, ?_, ?_⟩ <;> simp

/-- Environment and state for the repeat-render scenarios. -/
def envC4 : Env := { compId := "c" }

/-- One registered plain surface `s1` on component `c`. -/
def stC4 : CState := addSurface envC4 {} "s1" none

/-- First render of the sentinel-colliding content. -/
def c4FirstBad : CState :=
  renderSurfaceContent envC4 5 stC4 "c-s1" (.str "ljdpyaaaq") (Content.undef)

/-- Second render of the same content. -/
def c4SecondBad : CState :=
  renderSurfaceContent envC4 5 c4FirstBad "c-s1" (.str "ljdpyaaaq") (Content.undef)

/-- Environment for the decorate-flow repeat-render scenario: the DOM holds
markup that differs from the rendered content. -/
def envC4d : Env :=
  { compId := "c", outerHTML := fun _ => "<div id=\"c-s1\">different</div>" }

/-- A decorating component with one registered plain surface. -/
def stC4d : CState := {addSurface envC4d {} "s1" none with decorating := true}

/-- First decorate-flow render. -/
def c4FirstDec : CState :=
  renderSurfaceContent envC4d 5 stC4d "c-s1" (.str "hello") (Content.undef)

/-- Second decorate-flow render of byte-identical content. -/
def c4SecondDec : CState :=
  renderSurfaceContent envC4d 5 c4FirstDec "c-s1" (.str "hello") (Content.undef)

/-- Environment for the self-referential placeholder scenario: surface `s1`'s
provider yields plain content while the rendered string embeds `s1`'s own
placeholder token. -/
def envC4t : Env :=
  { compId := "c",
    getSurfaceContent := fun sid _ => if sid = "s1" then .str "z" else .undef }

/-- One registered plain surface for the token scenario. -/
def stC4t : CState := addSurface envC4t {} "s1" none

/-- First render of content embedding the surface's own placeholder. -/
def c4FirstTok : CState :=
  renderSurfaceContent envC4t 5 stC4t "c-s1" (.str "%%%%~s-c-s1~%%%%") (Content.undef)

/-- Second render of the byte-identical token content. -/
def c4SecondTok : CState :=
  renderSurfaceContent envC4t 5 c4FirstTok "c-s1" (.str "%%%%~s-c-s1~%%%%") (Content.undef)

set_option maxRecDepth 8192 in
/-- C4 counterexamples: a repeat invocation with byte-identical string
content is not always a hit performing zero replacement, and each restriction
of the amended claim is forced by a concrete failure.  (i) The ASCII string
`ljdpyaaaq` hashes exactly to the `NOT_CACHEABLE` sentinel (-1): the second
invocation records a failed cache check and re-enters
`replaceSurfaceContent_`, re-replacing the surface's DOM subtree.
(ii) While `decorating_` is true the comparison runs against the DOM markup,
not the previously rendered content, so byte-identical content misses and
replaces whenever the DOM differs.  (iii) For content embedding the
surface's own placeholder token the second invocation IS a cache hit, yet
the hit path re-enters `renderSurfaceContent` for the embedded placeholder —
the same surface — which misses against the provider content and replaces
the surface's DOM subtree: a hit with nonzero replacement.  (iv) The empty
string is falsy in JS, falls through to the (absent) content provider, and
the invocation performs no comparison at all — never a cache hit. -/
theorem repeat_render_cache_hit_counterexamples :
    (hashCode "ljdpyaaaq" = NOT_CACHEABLE ∧
      (c4SecondBad.trace.drop c4FirstBad.trace.length).contains
        (.cacheCheck "c-s1" (-1) (-1) false) = true ∧
      (c4SecondBad.trace.drop c4FirstBad.trace.length).contains
        (.replaceSurface "c-s1") = true) ∧
    ((c4SecondDec.trace.drop c4FirstDec.trace.length).contains
        (.cacheCheck "c-s1" (hashCode "hello")
          (hashCode "<div id=\"c-s1\">different</div>") false) = true ∧
      (c4SecondDec.trace.drop c4FirstDec.trace.length).contains
        (.replaceSurface "c-s1") = true) ∧
    ((c4SecondTok.trace.drop c4FirstTok.trace.length).contains
        (.cacheCheck "c-s1" (hashCode "%%%%~s-c-s1~%%%%")
          (hashCode "%%%%~s-c-s1~%%%%") true) = true ∧
      (c4SecondTok.trace.drop c4FirstTok.trace.length).contains
        (.replaceSurface "c-s1") = true) ∧
    renderSurfaceContent envC4 5 stC4 "c-s1" (.str "") (Content.undef) = stC4 :=
  ⟨⟨by decide, by decide, by decide⟩, ⟨by decide, by decide⟩,
   ⟨by decide, by decide⟩, by decide⟩

theorem repeat_render_surface_cache_hit_witness :
    (renderSurfaceContent envC4 7
        (renderSurfaceContent envC4 5 stC4 "c-s1" (.str "hello") .undef)
        "c-s1" (.str "hello") .undef).trace
      = (renderSurfaceContent envC4 5 stC4 "c-s1" (.str "hello") .undef).trace
          ++ [.cacheCheck "c-s1" (computeSurfaceCacheState_ envC4 (.str "hello"))
                (computeSurfaceCacheState_ envC4 (.str "hello")) true] :=
  (repeat_render_surface_cache_hit envC4 5 7 stC4 "c-s1" {} "hello"
    (by decide) (by decide) rfl rfl (by decide) (by decide)
    (by decide) (by decide)).1

/-! ## Helper lemmas for the decoration flow (C5) -/

/-- Placeholder-free content: non-string content, or a string in which the
token scanner finds no placeholder. -/
def tokenFree : Content → Bool
  | .str s => !hasToken s.data
  | _ => true

theorem replaceSurfacePlaceholders_tokenFree (env : Env) (fuel : Nat)
    (st : CState) (c : Content) (optId : Option String)
    (h : tokenFree c = true) :
    replaceSurfacePlaceholders_ env fuel st c optId = (st, c) := by
  cases c with
  | str s =>
    apply replaceSurfacePlaceholders_no_token
    simpa [tokenFree] using h
  | node i => simp [replaceSurfacePlaceholders_]
  | undef => simp [replaceSurfacePlaceholders_]

/-- The surface under key `k` stores cache state `cs`. -/
def surfaceCacheAt (env : Env) (st : CState) (k : String) (cs : Int) : Prop :=
  resolveSurfaceKey env st k = some k ∧
  (getSurface env st k).map (fun r => r.cacheState) = some cs

theorem surfaceCacheAt_pushTrace (env : Env) (st : CState) (e : Ev) (k : String)
    (cs : Int) (h : surfaceCacheAt env st k cs) :
    surfaceCacheAt env (pushTrace st e) k cs := h

theorem surfaceCacheAt_update_elem (env : Env) (st : CState) (k : String) (cs : Int)
    (f : SurfaceRec → SurfaceRec)
    (hf : ∀ r, (f r).cacheState = r.cacheState)
    (h : surfaceCacheAt env st k cs) :
    surfaceCacheAt env (updateSurface env st k f) k cs := by
  obtain ⟨h1, h3⟩ := h
  have hu := getSurface_updateSurface_self env st k f h1
  refine ⟨hu.2, ?_⟩
  rw [hu.1]
  cases hg : getSurface env st k with
  | none => rw [hg] at h3; simp at h3
  | some r =>
    rw [hg] at h3
    simp only [Option.map_some'] at h3 ⊢
    rw [hf r]
    exact h3

theorem surfaceCacheAt_cache (env : Env) (st : CState) (k : String) (c : Content)
    (h1 : resolveSurfaceKey env st k = some k)
    (h2 : (getSurface env st k).isSome = true) :
    surfaceCacheAt env (cacheSurfaceContent env st k c) k
      (computeSurfaceCacheState_ env c) := by
  unfold cacheSurfaceContent
  have hu := getSurface_updateSurface_self env st k
    (fun s => {s with cacheState := computeSurfaceCacheState_ env c}) h1
  refine ⟨hu.2, ?_⟩
  rw [hu.1]
  cases hg : getSurface env st k with
  | none => rw [hg] at h2; simp at h2
  | some r => simp

theorem surfaceCacheAt_replaceSurfaceContent (env : Env) (fuel : Nat) (st : CState)
    (k : String) (cs : Int) (c : Content)
    (htf : tokenFree c = true) (h : surfaceCacheAt env st k cs) :
    surfaceCacheAt env (replaceSurfaceContent_ env fuel st k c) k cs := by
  unfold replaceSurfaceContent_
  dsimp only
  have h0 : surfaceCacheAt env (pushTrace st (.replaceSurface k)) k cs :=
    surfaceCacheAt_pushTrace env st _ k cs h
  have hel : surfaceCacheAt env
      (getSurfaceElement env (pushTrace st (.replaceSurface k)) k).1 k cs := by
    unfold getSurfaceElement
    cases he : surfaceElementRef env (pushTrace st (.replaceSurface k)) k with
    | none => exact h0
    | some e =>
      apply surfaceCacheAt_update_elem env _ k cs _ _ h0
      intro r
      rfl
  rw [replaceSurfacePlaceholders_tokenFree env fuel _ c (some k) htf]
  split
  · split
    · split
      · apply surfaceCacheAt_pushTrace
        apply surfaceCacheAt_update_elem env _ k cs _ _ hel
        intro r
        rfl
      · apply surfaceCacheAt_update_elem env _ k cs _ _ hel
        intro r
        rfl
    · apply surfaceCacheAt_update_elem env _ k cs _ _ hel
      intro r
      rfl
  · exact surfaceCacheAt_pushTrace env _ _ k cs
      (surfaceCacheAt_pushTrace env _ _ k cs hel)

theorem getSurfaceElement_snd (env : Env) (st : CState) (k : String) :
    (getSurfaceElement env st k).2 = surfaceElementRef env st k := by
  unfold getSurfaceElement
  split <;> simp_all

theorem getSurfaceElement_trace (env : Env) (st : CState) (k : String) :
    (getSurfaceElement env st k).1.trace = st.trace := by
  unfold getSurfaceElement
  split
  · rfl
  · exact updateSurface_trace env st k _

theorem surfaceElementRef_isSome (env : Env) (st : CState) (k : String)
    (surf : SurfaceRec) (hget : getSurface env st k = some surf) :
    (surfaceElementRef env st k).isSome = true := by
  unfold surfaceElementRef
  rw [hget]
  dsimp only
  cases he : surf.element with
  | some e => rfl
  | none =>
    dsimp only
    split <;> rfl

theorem pushTrace_trace (st : CState) (e : Ev) :
    (pushTrace st e).trace = st.trace ++ [e] := rfl

theorem surfCacheState_of_at (env : Env) (st : CState) (k : String) (cs : Int)
    (h : surfaceCacheAt env st k cs) : surfCacheState env st k = cs := by
  obtain ⟨-, h2⟩ := h
  unfold surfCacheState
  cases hg : getSurface env st k with
  | none => rw [hg] at h2; simp at h2
  | some r =>
    rw [hg] at h2
    simp only [Option.map_some'] at h2 ⊢
    simpa using h2

theorem replaceSurfaceContent_trace_ext (env : Env) (fuel : Nat) (st : CState)
    (k : String) (s : String) (hnt : hasToken s.data = false) :
    ∃ t, (replaceSurfaceContent_ env fuel st k (.str s)).trace = st.trace ++ t := by
  unfold replaceSurfaceContent_
  dsimp only
  rw [replaceSurfacePlaceholders_no_token env fuel _ s (some k) hnt]
  split
  · split
    · split
      · exact ⟨_, by
          simp only [pushTrace_trace, updateSurface_trace, getSurfaceElement_trace,
            List.append_assoc]
          rfl⟩
      · exact ⟨_, by
          simp only [pushTrace_trace, updateSurface_trace, getSurfaceElement_trace,
            List.append_assoc]
          rfl⟩
    · exact ⟨_, by
        simp only [pushTrace_trace, updateSurface_trace, getSurfaceElement_trace,
          List.append_assoc]
        rfl⟩
  · exact ⟨_, by
      simp only [pushTrace_trace, updateSurface_trace, getSurfaceElement_trace,
        List.append_assoc]
      rfl⟩

theorem surfaceCacheAt_isSome (env : Env) (st : CState) (k : String) (cs : Int)
    (h : surfaceCacheAt env st k cs) : (getSurface env st k).isSome = true := by
  obtain ⟨-, h2⟩ := h
  cases hg : getSurface env st k with
  | none => rw [hg] at h2; simp at h2
  | some r => rfl

/-- Environment for the decoration witness: the DOM already holds markup. -/
def envC5 : Env :=
  { compId := "c", outerHTML := fun _ => "<div id=\"c-s1\">old</div>" }

/-- A decorating component with one registered plain surface. -/
def stC5 : CState := {addSurface envC5 {} "s1" none with decorating := true}

/-! ## Trace extension: the surface-rendering engine only appends events, and
never a `finalizeSurface` mark (only `updatePlaceholderSurface_` pushes one,
at its entry) -/

/-- Projection of the `finalizeSurface` instrumentation mark. -/
def finalizeId : Ev → Option String
  | .finalizeSurface i => some i
  | _ => none

/-- No `finalizeSurface` mark occurs in the event list. -/
def noFinalize (t : List Ev) : Bool := t.all (fun e => (finalizeId e).isNone)

/-- `b`'s trace extends `a`'s chronologically, and none of the appended
events is a `finalizeSurface` mark. -/
def tracePure (a b : CState) : Prop :=
  ∃ t, b.trace = a.trace ++ t ∧ noFinalize t = true

theorem noFinalize_append (t1 t2 : List Ev) :
    noFinalize (t1 ++ t2) = (noFinalize t1 && noFinalize t2) := by
  simp [noFinalize, List.all_append]

theorem tracePure_refl (a : CState) : tracePure a a :=
  ⟨[], by simp, rfl⟩

theorem tracePure_trans {a b c : CState} (h1 : tracePure a b)
    (h2 : tracePure b c) : tracePure a c := by
  obtain ⟨t1, e1, n1⟩ := h1
  obtain ⟨t2, e2, n2⟩ := h2
  refine ⟨t1 ++ t2, ?_, ?_⟩
  · rw [e2, e1, List.append_assoc]
  · rw [noFinalize_append, n1, n2]
    rfl

theorem tracePure_of_trace_eq {a b : CState} (h : b.trace = a.trace) :
    tracePure a b :=
  ⟨[], by simp [h], rfl⟩

theorem tracePure_pushTrace (a : CState) (e : Ev)
    (h : (finalizeId e).isNone = true) : tracePure a (pushTrace a e) :=
  ⟨[e], rfl, by simp [noFinalize, h]⟩

theorem updateSurface_tracePure (env : Env) (st : CState) (k : String)
    (f : SurfaceRec → SurfaceRec) : tracePure st (updateSurface env st k f) :=
  tracePure_of_trace_eq (updateSurface_trace env st k f)

theorem cacheSurfaceContent_tracePure (env : Env) (st : CState) (k : String)
    (c : Content) : tracePure st (cacheSurfaceContent env st k c) :=
  tracePure_of_trace_eq (cacheSurfaceContent_trace env st k c)

theorem addMissingAttr_trace (st : CState) (a : String) :
    (addMissingAttr_ st a).trace = st.trace := by
  unfold addMissingAttr_
  split <;> rfl

theorem cacheSurfaceRenderAttrs_trace (env : Env) (st : CState) (k : String) :
    (cacheSurfaceRenderAttrs_ env st k).trace = st.trace := by
  unfold cacheSurfaceRenderAttrs_
  apply foldl_preserve
  intro st' a
  dsimp only
  split
  · rfl
  · exact addMissingAttr_trace _ a

theorem addSurface_tracePure (env : Env) (st : CState) (sid : String)
    (cfg : Option SurfaceRec) : tracePure st (addSurface env st sid cfg) := by
  unfold addSurface
  dsimp only
  split
  · exact ⟨_, by rw [cacheSurfaceRenderAttrs_trace]; rfl, by rfl⟩
  · exact ⟨[], by rw [cacheSurfaceRenderAttrs_trace]; simp, rfl⟩

theorem createPlaceholderSurface_tracePure (env : Env) (st : CState)
    (oid parentOpt : Option String) :
    tracePure st (createPlaceholderSurface_ env st oid parentOpt).1 := by
  unfold createPlaceholderSurface_
  cases oid with
  | some i =>
    dsimp only
    split
    · exact tracePure_refl st
    · exact addSurface_tracePure env st i _
  | none =>
    dsimp only
    split
    · exact tracePure_refl _
    · exact tracePure_trans (tracePure_of_trace_eq rfl) (addSurface_tracePure env _ _ _)

theorem getSurfaceElement_tracePure (env : Env) (st : CState) (k : String) :
    tracePure st (getSurfaceElement env st k).1 :=
  tracePure_of_trace_eq (getSurfaceElement_trace env st k)

theorem expandScan_tracePure (env : Env)
    (recur : CState → Content → Option String → CState × Content)
    (hre : ∀ st c oid, tracePure st (recur st c oid).1) :
    ∀ (gas : Nat) (parent : Option String) (l : List Char) (st : CState),
      tracePure st (expandScan env recur gas st parent l).1 := by
  intro gas
  induction gas with
  | zero => intro parent l st; exact tracePure_refl st
  | succ g ih =>
    intro parent l st
    cases l with
    | nil => exact tracePure_refl st
    | cons c rest =>
      cases hm : matchToken (c :: rest) with
      | none =>
        simp only [expandScan, hm]
        exact ih parent rest st
      | some v =>
        obtain ⟨idOpt, after⟩ := v
        simp only [expandScan, hm]
        exact tracePure_trans
          (tracePure_trans
            (tracePure_trans
              (tracePure_trans (createPlaceholderSurface_tracePure env st idOpt parent)
                (updateSurface_tracePure env _ _ _))
              (hre _ _ _))
            (tracePure_of_trace_eq rfl))
          (ih parent after _)

theorem replaceSurfacePlaceholders_tracePure (env : Env) :
    ∀ (fuel : Nat) (st : CState) (c : Content) (oid : Option String),
      tracePure st (replaceSurfacePlaceholders_ env fuel st c oid).1 := by
  intro fuel
  induction fuel with
  | zero =>
    intro st c oid
    cases c with
    | str s =>
      simp only [replaceSurfacePlaceholders_]
      exact expandScan_tracePure env _ (fun st' _ _ => tracePure_refl st') _ _ _ _
    | node i => exact tracePure_refl st
    | undef => exact tracePure_refl st
  | succ f ih =>
    intro st c oid
    cases c with
    | str s =>
      simp only [replaceSurfacePlaceholders_]
      exact expandScan_tracePure env _ (fun st' c' oid' => ih st' c' oid') _ _ _ _
    | node i => exact tracePure_refl st
    | undef => exact tracePure_refl st

theorem renderComponentSurface_tracePure (env : Env) (st : CState) (k : String)
    (c : Content) : tracePure st (renderComponentSurface_ env st k c) := by
  unfold renderComponentSurface_
  dsimp only
  split_ifs <;>
    first
    | exact tracePure_pushTrace _ _ (by rfl)
    | exact tracePure_trans (tracePure_pushTrace _ _ (by rfl)) (tracePure_pushTrace _ _ (by rfl))

theorem replaceSurfaceContent_tracePure (env : Env) (fuel : Nat) (st : CState)
    (k : String) (c : Content) :
    tracePure st (replaceSurfaceContent_ env fuel st k c) := by
  unfold replaceSurfaceContent_
  dsimp only
  have hbase : tracePure st (replaceSurfacePlaceholders_ env fuel
      (getSurfaceElement env (pushTrace st (.replaceSurface k)) k).1 c (some k)).1 :=
    tracePure_trans
      (tracePure_trans (tracePure_pushTrace st _ (by rfl))
        (getSurfaceElement_tracePure env _ k))
      (replaceSurfacePlaceholders_tracePure env fuel _ c (some k))
  split
  · split
    · rename_i e
      split
      · exact tracePure_trans (tracePure_trans hbase (updateSurface_tracePure env _ _ _))
          (tracePure_pushTrace _ _ (by rfl))
      · exact tracePure_trans hbase (updateSurface_tracePure env _ _ _)
    · exact tracePure_trans hbase (updateSurface_tracePure env _ _ _)
  · exact tracePure_trans hbase (tracePure_trans (tracePure_pushTrace _ _ (by rfl))
      (tracePure_pushTrace _ _ (by rfl)))

theorem rpscScan_tracePure (env : Env) (recur : CState → String → CState)
    (hre : ∀ st i, tracePure st (recur st i)) :
    ∀ (gas : Nat) (pid : String) (l : List Char) (st : CState),
      tracePure st (rpscScan env recur gas st pid l) := by
  intro gas
  induction gas with
  | zero => intro pid l st; exact tracePure_refl st
  | succ g ih =>
    intro pid l st
    cases l with
    | nil => exact tracePure_refl st
    | cons c rest =>
      cases hm : matchToken (c :: rest) with
      | none =>
        simp only [rpscScan, hm]
        exact ih pid rest st
      | some v =>
        obtain ⟨idOpt, after⟩ := v
        simp only [rpscScan, hm]
        exact tracePure_trans (tracePure_trans
          (createPlaceholderSurface_tracePure env st idOpt (some pid)) (hre _ _))
          (ih pid after _)

theorem renderPlaceholderSurfaceContents_tracePure (env : Env)
    (recur : CState → String → CState)
    (hre : ∀ st i, tracePure st (recur st i))
    (st : CState) (c : Content) (k : String) :
    tracePure st (renderPlaceholderSurfaceContents_ env recur st c k) := by
  unfold renderPlaceholderSurfaceContents_
  cases c with
  | str s => exact rpscScan_tracePure env recur hre _ _ _ _
  | node i => exact tracePure_refl st
  | undef => exact tracePure_refl st

theorem decorCachePre_trace (env : Env) (st : CState) (k : String) :
    (decorCachePre env st k).trace = st.trace := by
  unfold decorCachePre
  exact (cacheSurfaceContent_trace env _ k _).trans (getSurfaceElement_trace env st k)

theorem cacheCompare_tracePure (env : Env) (st : CState) (k : String)
    (content cacheContent : Content) :
    tracePure st (cacheCompare env st k content cacheContent).1 := by
  unfold cacheCompare
  dsimp only
  split_ifs <;>
    exact tracePure_trans (tracePure_of_trace_eq (by
      simp only [cacheSurfaceContent_trace, decorCachePre_trace]))
      (tracePure_pushTrace _ _ (by rfl))

set_option maxHeartbeats 1600000 in
theorem renderSurfaceContent_tracePure (env : Env) :
    ∀ (fuel : Nat) (st : CState) (k : String) (oc occ : Content),
      tracePure st (renderSurfaceContent env fuel st k oc occ) := by
  intro fuel
  induction fuel with
  | zero =>
    intro st k oc occ
    rw [renderSurfaceContent]
    split
    · exact tracePure_refl st
    · split
      · exact renderComponentSurface_tracePure env st k oc
      · dsimp only
        split_ifs <;>
          first
          | exact tracePure_refl st
          | exact tracePure_trans (tracePure_trans (cacheCompare_tracePure env st k _ _)
                (tracePure_pushTrace _ _ (by rfl)))
              (renderPlaceholderSurfaceContents_tracePure env (fun st' _ => st')
                (fun st' _ => tracePure_refl st') _ _ _)
          | exact tracePure_trans (cacheCompare_tracePure env st k _ _)
              (renderPlaceholderSurfaceContents_tracePure env (fun st' _ => st')
                (fun st' _ => tracePure_refl st') _ _ _)
          | exact tracePure_trans (tracePure_trans (cacheCompare_tracePure env st k _ _)
                (tracePure_pushTrace _ _ (by rfl)))
              (replaceSurfaceContent_tracePure env _ _ _ _)
  | succ f ih =>
    intro st k oc occ
    rw [renderSurfaceContent]
    split
    · exact tracePure_refl st
    · split
      · exact renderComponentSurface_tracePure env st k oc
      · dsimp only
        split_ifs <;>
          first
          | exact tracePure_refl st
          | exact tracePure_trans (tracePure_trans (cacheCompare_tracePure env st k _ _)
                (tracePure_pushTrace _ _ (by rfl)))
              (renderPlaceholderSurfaceContents_tracePure env
                (fun st' i => renderSurfaceContent env f st' i .undef .undef)
                (fun st' i => ih st' i .undef .undef) _ _ _)
          | exact tracePure_trans (cacheCompare_tracePure env st k _ _)
              (renderPlaceholderSurfaceContents_tracePure env
                (fun st' i => renderSurfaceContent env f st' i .undef .undef)
                (fun st' i => ih st' i .undef .undef) _ _ _)
          | exact tracePure_trans (tracePure_trans (cacheCompare_tracePure env st k _ _)
                (tracePure_pushTrace _ _ (by rfl)))
              (replaceSurfaceContent_tracePure env _ _ _ _)

set_option maxHeartbeats 1600000 in
/-- `updatePlaceholderSurface_` pushes exactly one `finalizeSurface` mark, at
entry; everything it does afterwards appends finalize-free events. -/
theorem updatePlaceholderSurface_trace_shape (env : Env) (fuel : Nat) (st : CState)
    (cd : Collected) :
    ∃ t, (updatePlaceholderSurface_ env fuel st cd).trace
        = st.trace ++ .finalizeSurface cd.surfaceElementId :: t ∧
      noFinalize t = true := by
  have hpure : tracePure (pushTrace st (.finalizeSurface cd.surfaceElementId))
      (updatePlaceholderSurface_ env fuel st cd) := by
    unfold updatePlaceholderSurface_
    dsimp only
    split
    · exact tracePure_refl _
    · split_ifs
      · exact tracePure_trans (tracePure_trans
            (getSurfaceElement_tracePure env _ _) (tracePure_pushTrace _ _ (by rfl)))
          (renderSurfaceContent_tracePure env fuel _ _ _ _)
      · exact tracePure_trans (tracePure_trans (tracePure_trans (tracePure_trans
            (getSurfaceElement_tracePure env _ _) (tracePure_pushTrace _ _ (by rfl)))
            (updateSurface_tracePure env _ _ _))
            (cacheSurfaceContent_tracePure env _ _ _))
          (tracePure_pushTrace _ _ (by rfl))
      · exact renderSurfaceContent_tracePure env fuel _ _ _ _
      · exact tracePure_trans (tracePure_trans (updateSurface_tracePure env _ _ _)
            (cacheSurfaceContent_tracePure env _ _ _))
          (tracePure_pushTrace _ _ (by rfl))
  obtain ⟨t, ht, hn⟩ := hpure
  refine ⟨t, ?_, hn⟩
  rw [ht, pushTrace_trace, List.append_assoc]
  rfl

theorem filterMap_finalizeId_nil (t : List Ev) (h : noFinalize t = true) :
    t.filterMap finalizeId = [] := by
  induction t with
  | nil => rfl
  | cons e tl ih =>
    simp only [noFinalize, List.all_cons, Bool.and_eq_true] at h
    cases he : finalizeId e with
    | some i =>
      rw [he] at h
      simp at h
    | none =>
      rw [List.filterMap_cons, he]
      exact ih h.2

/-- One step of the finalization fold. -/
def updatePlaceholderStep (env : Env) (fuel : Nat) (st : CState)
    (cd : Collected) : CState :=
  updateSurface env (updatePlaceholderSurface_ env fuel st cd)
    cd.surfaceElementId (fun s => {s with handled := false})

theorem updatePlaceholderStep_trace_shape (env : Env) (fuel : Nat) (st : CState)
    (cd : Collected) :
    ∃ t, (updatePlaceholderStep env fuel st cd).trace
        = st.trace ++ .finalizeSurface cd.surfaceElementId :: t ∧
      noFinalize t = true := by
  obtain ⟨t, ht, hn⟩ := updatePlaceholderSurface_trace_shape env fuel st cd
  refine ⟨t, ?_, hn⟩
  unfold updatePlaceholderStep
  rw [updateSurface_trace, ht]

theorem updatePlaceholderSurfaces_foldl_trace_ext (env : Env) (fuel : Nat) :
    ∀ (l : List Collected) (st : CState),
      ∃ u, (l.foldl (updatePlaceholderStep env fuel) st).trace = st.trace ++ u := by
  intro l
  induction l with
  | nil => intro st; exact ⟨[], by simp⟩
  | cons cd tl ih =>
    intro st
    rw [List.foldl_cons]
    obtain ⟨u, hu⟩ := ih (updatePlaceholderStep env fuel st cd)
    obtain ⟨t, ht, -⟩ := updatePlaceholderStep_trace_shape env fuel st cd
    refine ⟨.finalizeSurface cd.surfaceElementId :: (t ++ u), ?_⟩
    rw [hu, ht]
    simp

/-- The finalization fold emits the `finalizeSurface` marks of the processed
entries in processing order. -/
theorem updatePlaceholderSurfaces_foldl_finalize (env : Env) (fuel : Nat) :
    ∀ (l : List Collected) (st : CState),
      (((l.foldl (updatePlaceholderStep env fuel) st).trace.drop
          st.trace.length).filterMap finalizeId)
        = l.map (fun cd => cd.surfaceElementId) := by
  intro l
  induction l with
  | nil =>
    intro st
    rw [List.foldl_nil, List.drop_length]
    rfl
  | cons cd tl ih =>
    intro st
    rw [List.foldl_cons]
    obtain ⟨t, ht, hn⟩ := updatePlaceholderStep_trace_shape env fuel st cd
    obtain ⟨u, hu⟩ := updatePlaceholderSurfaces_foldl_trace_ext env fuel tl
      (updatePlaceholderStep env fuel st cd)
    have hihd := ih (updatePlaceholderStep env fuel st cd)
    rw [hu, ht, List.drop_left] at hihd
    rw [hu, ht, List.append_assoc, List.drop_left, List.cons_append,
      List.filterMap_cons, List.filterMap_append, filterMap_finalizeId_nil t hn,
      List.map_cons]
    simp only [finalizeId, List.nil_append]
    rw [hihd]

/-- `updatePlaceholderSurfaces_` finalizes the collected entries in exact
reverse order of their discovery. -/
theorem updatePlaceholderSurfaces_finalize (env : Env) (fuel : Nat) (st : CState) :
    ((updatePlaceholderSurfaces_ env fuel st).trace.drop st.trace.length).filterMap
        finalizeId
      = (st.collected.map (fun cd => cd.surfaceElementId)).reverse := by
  have h := updatePlaceholderSurfaces_foldl_finalize env fuel st.collected.reverse st
  rw [List.map_reverse] at h
  exact h

/-! ## Collected-list extension: placeholder expansion only appends entries -/

/-- The entries `b`'s collected list holds beyond `a`'s. -/
def newCollected (a b : CState) : List Collected :=
  b.collected.drop a.collected.length

theorem ext_to_drop {α : Type} (l₁ l₂ : List α) (t : List α) (h : l₂ = l₁ ++ t) :
    l₂ = l₁ ++ l₂.drop l₁.length := by
  rw [h, List.drop_left]

/-- `b`'s collected list extends `a`'s. -/
def collectedExt (a b : CState) : Prop :=
  ∃ d, b.collected = a.collected ++ d

theorem collectedExt_refl (a : CState) : collectedExt a a := ⟨[], by simp⟩

theorem collectedExt_trans {a b c : CState} (h1 : collectedExt a b)
    (h2 : collectedExt b c) : collectedExt a c := by
  obtain ⟨d1, e1⟩ := h1
  obtain ⟨d2, e2⟩ := h2
  exact ⟨d1 ++ d2, by rw [e2, e1, List.append_assoc]⟩

theorem collectedExt_of_eq {a b : CState} (h : b.collected = a.collected) :
    collectedExt a b := ⟨[], by simp [h]⟩

theorem updateSurface_collected (env : Env) (st : CState) (k : String)
    (f : SurfaceRec → SurfaceRec) :
    (updateSurface env st k f).collected = st.collected := by
  unfold updateSurface
  split <;> rfl

theorem addMissingAttr_collected (st : CState) (a : String) :
    (addMissingAttr_ st a).collected = st.collected := by
  unfold addMissingAttr_
  split <;> rfl

theorem cacheSurfaceRenderAttrs_collected (env : Env) (st : CState) (k : String) :
    (cacheSurfaceRenderAttrs_ env st k).collected = st.collected := by
  unfold cacheSurfaceRenderAttrs_
  apply foldl_preserve
  intro st' a
  dsimp only
  split
  · rfl
  · exact addMissingAttr_collected _ a

theorem addSurface_collected (env : Env) (st : CState) (sid : String)
    (cfg : Option SurfaceRec) :
    (addSurface env st sid cfg).collected = st.collected := by
  unfold addSurface
  rw [cacheSurfaceRenderAttrs_collected]
  split <;> rfl

theorem createPlaceholderSurface_collected (env : Env) (st : CState)
    (oid parentOpt : Option String) :
    (createPlaceholderSurface_ env st oid parentOpt).1.collected = st.collected := by
  unfold createPlaceholderSurface_ generateSurfaceElementId_
  cases oid with
  | some i =>
    dsimp only
    split
    · rfl
    · exact addSurface_collected env st i _
  | none =>
    dsimp only
    split
    · rfl
    · exact addSurface_collected env _ _ _

theorem expandScan_collectedExt (env : Env)
    (recur : CState → Content → Option String → CState × Content)
    (hre : ∀ st c oid, collectedExt st (recur st c oid).1) :
    ∀ (gas : Nat) (parent : Option String) (l : List Char) (st : CState),
      collectedExt st (expandScan env recur gas st parent l).1 := by
  intro gas
  induction gas with
  | zero => intro parent l st; exact collectedExt_refl st
  | succ g ih =>
    intro parent l st
    cases l with
    | nil => exact collectedExt_refl st
    | cons c rest =>
      cases hm : matchToken (c :: rest) with
      | none =>
        simp only [expandScan, hm]
        exact ih parent rest st
      | some v =>
        obtain ⟨idOpt, after⟩ := v
        simp only [expandScan, hm]
        exact collectedExt_trans
          (collectedExt_trans
            (collectedExt_trans
              (collectedExt_trans
                (collectedExt_of_eq (createPlaceholderSurface_collected env st idOpt parent))
                (collectedExt_of_eq (updateSurface_collected env _ _ _)))
              (hre _ _ _))
            ⟨_, by rfl⟩)
          (ih parent after _)

theorem replaceSurfacePlaceholders_collectedExt (env : Env) :
    ∀ (fuel : Nat) (st : CState) (c : Content) (oid : Option String),
      collectedExt st (replaceSurfacePlaceholders_ env fuel st c oid).1 := by
  intro fuel
  induction fuel with
  | zero =>
    intro st c oid
    cases c with
    | str s =>
      simp only [replaceSurfacePlaceholders_]
      exact expandScan_collectedExt env _ (fun st' _ _ => collectedExt_refl st') _ _ _ _
    | node i => exact collectedExt_refl st
    | undef => exact collectedExt_refl st
  | succ f ih =>
    intro st c oid
    cases c with
    | str s =>
      simp only [replaceSurfacePlaceholders_]
      exact expandScan_collectedExt env _ (fun st' c' oid' => ih st' c' oid') _ _ _ _
    | node i => exact collectedExt_refl st
    | undef => exact collectedExt_refl st

/-- `replaceSurfacePlaceholders_` only appends to the collected list. -/
theorem replaceSurfacePlaceholders_collected_drop (env : Env) (fuel : Nat)
    (st : CState) (c : Content) (oid : Option String) :
    (replaceSurfacePlaceholders_ env fuel st c oid).1.collected
      = st.collected
        ++ newCollected st (replaceSurfacePlaceholders_ env fuel st c oid).1 := by
  obtain ⟨d, hd⟩ := replaceSurfacePlaceholders_collectedExt env fuel st c oid
  unfold newCollected
  exact ext_to_drop _ _ d hd

/-! ## C2: post-order discovery, reverse-order finalization -/

/-- Provider for the sibling scenario: nesting `A ⊃ B ⊃ C` plus a second
top-level surface `D` to the right of `A`. -/
def envC2s : Env :=
  { compId := "c",
    getSurfaceContent := fun sid _ =>
      if sid = "A" then .str "a[%%%%~s-B~%%%%]"
      else if sid = "B" then .str "b[%%%%~s-C~%%%%]"
      else if sid = "C" then .str "c"
      else if sid = "D" then .str "d"
      else .undef }

/-- Expansion of content holding `A`'s placeholder followed by `D`'s. -/
def c2sExpansion : CState × Content :=
  replaceSurfacePlaceholders_ envC2s 10 {} (.str "x%%%%~s-A~%%%%%%%%~s-D~%%%%y") none

/-- C2: placeholder expansion appends entries to `collectedSurfaces_` in
post-order, and finalization processes them in exact reverse order.
(1) For every content and state, `replaceSurfacePlaceholders_` only appends:
the resulting collected list is the input list extended by the new entries.
(2) Post-order shape at every matched token, for every recursive expander
that itself only appends: scanning a string whose head matches a token
leaves the collected list unchanged through surface registration, then
appends first the entries collected while recursively expanding the token's
own markup (the surface's descendants), then the surface's own entry, and
finally the entries of the scan's continuation (the following sibling
tokens, left to right).
(3) `updatePlaceholderSurfaces_` finalizes the collected entries in exact
reverse order: the `finalizeSurface` marks it appends are the reversed list
of collected surface element ids.
(4) Concretely, for nesting `A ⊃ B ⊃ C` the discovery list is `[C, B, A]`
and finalization processes `[A, B, C]`; with right sibling `D` the discovery
list is `[C, B, A, D]` and finalization processes `[D, A, B, C]`. -/
theorem placeholder_postorder_collection :
    (∀ (env : Env) (fuel : Nat) (st : CState) (c : Content) (oid : Option String),
      (replaceSurfacePlaceholders_ env fuel st c oid).1.collected
        = st.collected
          ++ newCollected st (replaceSurfacePlaceholders_ env fuel st c oid).1) ∧
    (∀ (env : Env)
      (recur : CState → Content → Option String → CState × Content)
      (gas : Nat) (parent : Option String) (st : CState) (c : Char)
      (rest : List Char) (idOpt : Option String) (after : List Char),
      (∀ st' c' oid', (recur st' c' oid').1.collected
        = st'.collected ++ newCollected st' (recur st' c' oid').1) →
      matchToken (c :: rest) = some (idOpt, after) →
      (updateSurface env (createPlaceholderSurface_ env st idOpt parent).1
          (createPlaceholderSurface_ env st idOpt parent).2
          (fun s => {s with handled := true})).collected = st.collected ∧
      (expandScan env recur (gas + 1) st parent (c :: rest)).1.collected
        = st.collected
          ++ (let p1 := createPlaceholderSurface_ env st idOpt parent
              let st2 := updateSurface env p1.1 p1.2 (fun s => {s with handled := true})
              let p3 := recur st2
                (getSurfaceHtml env st2 p1.2 (getSurfaceContent_ env st2 p1.2))
                (some p1.2)
              let entry : Collected :=
                {cacheContent := getSurfaceContent_ env st2 p1.2, content := p3.2,
                 surfaceElementId := p1.2}
              let st4 : CState := {p3.1 with collected := p3.1.collected ++ [entry]}
              newCollected st2 p3.1 ++ [entry]
                ++ newCollected st4 (expandScan env recur gas st4 parent after).1)) ∧
    (∀ (env : Env) (fuel : Nat) (st : CState),
      ((updatePlaceholderSurfaces_ env fuel st).trace.drop st.trace.length).filterMap
          finalizeId
        = (st.collected.map (fun cd => cd.surfaceElementId)).reverse) ∧
    c2Expansion.1.collected.map (fun cd => cd.surfaceElementId) = ["C", "B", "A"] ∧
    ((updatePlaceholderSurfaces_ envC2 10 c2Expansion.1).trace.drop
        c2Expansion.1.trace.length).filterMap finalizeId = ["A", "B", "C"] ∧
    c2sExpansion.1.collected.map (fun cd => cd.surfaceElementId) = ["C", "B", "A", "D"] ∧
    ((updatePlaceholderSurfaces_ envC2s 10 c2sExpansion.1).trace.drop
        c2sExpansion.1.trace.length).filterMap finalizeId = ["D", "A", "B", "C"] := by
  refine ⟨?_, ?_, ?_, ?_, ?_, ?_, ?_⟩
  · exact fun env fuel st c oid => replaceSurfacePlaceholders_collected_drop env fuel st c oid
  · intro env recur gas parent st c rest idOpt after hre hm
    have hreE : ∀ st' c' oid', collectedExt st' (recur st' c' oid').1 :=
      fun st' c' oid' => ⟨_, hre st' c' oid'⟩
    constructor
    · rw [updateSurface_collected, createPlaceholderSurface_collected]
    · simp only [expandScan, hm]
      set p1 := createPlaceholderSurface_ env st idOpt parent with hp1
      set st2 := updateSurface env p1.1 p1.2 (fun s => {s with handled := true}) with hst2
      set p3 := recur st2
        (getSurfaceHtml env st2 p1.2 (getSurfaceContent_ env st2 p1.2)) (some p1.2) with hp3
      set entry := ({cacheContent := getSurfaceContent_ env st2 p1.2, content := p3.2,
                     surfaceElementId := p1.2} : Collected) with hentry
      set st4 := ({p3.1 with collected := p3.1.collected ++ [entry]} : CState) with hst4
      set p5 := expandScan env recur gas st4 parent after with hp5
      obtain ⟨d, hd⟩ := expandScan_collectedExt env recur hreE gas parent after st4
      have h5 : p5.1.collected = st4.collected ++ newCollected st4 p5.1 := by
        rw [hp5]
        exact ext_to_drop _ _ d hd
      have h3 : p3.1.collected = st2.collected ++ newCollected st2 p3.1 := by
        rw [hp3]
        exact hre st2 _ _
      have h2 : st2.collected = st.collected := by
        rw [hst2, updateSurface_collected, hp1, createPlaceholderSurface_collected]
      have h4 : st4.collected = p3.1.collected ++ [entry] := by rw [hst4]
      rw [h5, h4, h3, h2]
      simp [List.append_assoc]
  · exact fun env fuel st => updatePlaceholderSurfaces_finalize env fuel st
  · decide
  · decide
  · decide
  · decide

/-- Registration step of the witness scan (surface `A`, top level). -/
def c2wP1 : CState × String := createPlaceholderSurface_ envC2 {} (some "A") none

/-- State after registering `A` and marking it handled. -/
def c2wSt2 : CState :=
  updateSurface envC2 c2wP1.1 c2wP1.2 (fun s => {s with handled := true})

/-- Recursive expansion of `A`'s markup. -/
def c2wP3 : CState × Content :=
  replaceSurfacePlaceholders_ envC2 3 c2wSt2
    (getSurfaceHtml envC2 c2wSt2 c2wP1.2 (getSurfaceContent_ envC2 c2wSt2 c2wP1.2))
    (some c2wP1.2)

/-- `A`'s own collected entry. -/
def c2wEntry : Collected :=
  {cacheContent := getSurfaceContent_ envC2 c2wSt2 c2wP1.2, content := c2wP3.2,
   surfaceElementId := c2wP1.2}

/-- State after appending `A`'s own entry. -/
def c2wSt4 : CState := {c2wP3.1 with collected := c2wP3.1.collected ++ [c2wEntry]}

theorem placeholder_postorder_collection_witness :
    matchToken ("%%%%~s-A~%%%%".data) = some (some "A", []) ∧
    c2wSt2.collected = ({} : CState).collected ∧
    (expandScan envC2 (replaceSurfacePlaceholders_ envC2 3) 13 {} none
        ("%%%%~s-A~%%%%".data)).1.collected
      = ({} : CState).collected
        ++ (newCollected c2wSt2 c2wP3.1 ++ [c2wEntry]
            ++ newCollected c2wSt4
              (expandScan envC2 (replaceSurfacePlaceholders_ envC2 3) 12 c2wSt4
                none []).1) :=
  ⟨by decide,
   (placeholder_postorder_collection.2.1 envC2 (replaceSurfacePlaceholders_ envC2 3)
     12 none {} '%' ("%%%~s-A~%%%%".data) (some "A") []
     (fun st' c' oid' => replaceSurfacePlaceholders_collected_drop envC2 3 st' c' oid')
     (by decide)).1,
   (placeholder_postorder_collection.2.1 envC2 (replaceSurfacePlaceholders_ envC2 3)
     12 none {} '%' ("%%%~s-A~%%%%".data) (some "A") []
     (fun st' c' oid' => replaceSurfacePlaceholders_collected_drop envC2 3 st' c' oid')
     (by decide)).2⟩

/-! ## C5: two-step caching in the decorate flow -/

/-- C5 (amended): in the decorate flow, for a registered non-component
surface whose resolved content (`opt_content` if truthy, otherwise the
provider's content) is defined and non-null, `renderSurfaceContent` decides
the cache hit by comparing the cache state of the pre-expansion content
against the cache state of the markup actually present in the DOM — the
compressed `outerHTML` of the resolved surface element, cached immediately
before the comparison.  When the resolved content is placeholder-free (any
non-string content, or a string without tokens), the surface's stored cache
state after the call equals the cache state of the steady-state cache
content (`opt_cacheContent` if truthy, otherwise the content): the
intermediate comparison value never survives the call.  (For content
embedding a placeholder that resolves back to the same surface, the nested
re-render performed after the comparison re-caches the surface and the
steady value does not survive: see the counterexample.) -/
theorem decorate_two_step_caching (env : Env) (fuel : Nat) (st : CState)
    (k : String) (surf : SurfaceRec) (c optContent occ : Content)
    (hres : resolveSurfaceKey env st k = some k)
    (hget : getSurface env st k = some surf)
    (hcomp : surf.componentName = none)
    (hdec : st.decorating = true)
    (hcon : (if optContent.isTruthy then optContent
             else getSurfaceContent_ env st k) = c)
    (hdf : c.isDefAndNotNull = true) :
    ((renderSurfaceContent env fuel st k optContent occ).trace.drop
        st.trace.length).head?
      = some (.cacheCheck k (computeSurfaceCacheState_ env c)
          (computeSurfaceCacheState_ env (.str (env.compress (env.outerHTML
            ((surfaceElementRef env st k).getD (.lookedUp k))))))
          (compareCacheStates_ (computeSurfaceCacheState_ env c)
            (computeSurfaceCacheState_ env (.str (env.compress (env.outerHTML
              ((surfaceElementRef env st k).getD (.lookedUp k)))))))) ∧
    (tokenFree c = true →
      surfCacheState env (renderSurfaceContent env fuel st k optContent occ) k
        = computeSurfaceCacheState_ env (if occ.isTruthy then occ else c)) := by
  have hrefS : (surfaceElementRef env st k).isSome = true :=
    surfaceElementRef_isSome env st k surf hget
  cases href : surfaceElementRef env st k with
  | none => rw [href] at hrefS; simp at hrefS
  | some el =>
  simp only [href, Option.getD_some]
  have hpel2 : (getSurfaceElement env st k).2 = some el := by
    rw [getSurfaceElement_snd, href]
  have hpel1res : resolveSurfaceKey env (getSurfaceElement env st k).1 k = some k := by
    unfold getSurfaceElement
    rw [href]
    exact (getSurface_updateSurface_self env st k _ hres).2
  have hpel1get : (getSurface env (getSurfaceElement env st k).1 k).isSome = true := by
    unfold getSurfaceElement
    rw [href]
    dsimp only
    rw [(getSurface_updateSurface_self env st k _ hres).1, hget]
    rfl
  have hdcp : decorCachePre env st k
      = cacheSurfaceContent env (getSurfaceElement env st k).1 k
          (.str (env.compress (env.outerHTML el))) := by
    unfold decorCachePre
    dsimp only
    rw [hpel2]
  have hat1 : surfaceCacheAt env (decorCachePre env st k) k
      (computeSurfaceCacheState_ env (.str (env.compress (env.outerHTML el)))) := by
    rw [hdcp]
    exact surfaceCacheAt_cache env _ k _ hpel1res hpel1get
  have hst1dec : (decorCachePre env st k).decorating = true := by
    rw [decorating_of_flags (decorCachePre_flags env st k), hdec]
  have hat2 : surfaceCacheAt env
      (cacheSurfaceContent env (decorCachePre env st k) k c) k
      (computeSurfaceCacheState_ env c) :=
    surfaceCacheAt_cache env _ k _ hat1.1 (surfaceCacheAt_isSome env _ k _ hat1)
  have hst2dec : (cacheSurfaceContent env (decorCachePre env st k) k c).decorating
      = true := by
    rw [decorating_of_flags (cacheSurfaceContent_flags env _ k _), hst1dec]
  have hat3 : surfaceCacheAt env
      (cacheSurfaceContent env
        (cacheSurfaceContent env (decorCachePre env st k) k c) k
        (if occ.isTruthy then occ else c)) k
      (computeSurfaceCacheState_ env (if occ.isTruthy then occ else c)) :=
    surfaceCacheAt_cache env _ k _ hat2.1 (surfaceCacheAt_isSome env _ k _ hat2)
  have htr1 : (decorCachePre env st k).trace = st.trace := by
    rw [hdcp, cacheSurfaceContent_trace, getSurfaceElement_trace]
  have htr3 : (cacheSurfaceContent env
      (cacheSurfaceContent env (decorCachePre env st k) k c) k
      (if occ.isTruthy then occ else c)).trace = st.trace := by
    rw [cacheSurfaceContent_trace, cacheSurfaceContent_trace, htr1]
  have hcc : cacheCompare env st k c (if occ.isTruthy then occ else c)
      = (pushTrace
          (cacheSurfaceContent env
            (cacheSurfaceContent env (decorCachePre env st k) k c) k
            (if occ.isTruthy then occ else c))
          (.cacheCheck k (computeSurfaceCacheState_ env c)
            (computeSurfaceCacheState_ env (.str (env.compress (env.outerHTML el))))
            (compareCacheStates_ (computeSurfaceCacheState_ env c)
              (computeSurfaceCacheState_ env
                (.str (env.compress (env.outerHTML el)))))),
         compareCacheStates_ (computeSurfaceCacheState_ env c)
           (computeSurfaceCacheState_ env (.str (env.compress (env.outerHTML el))))) := by
    unfold cacheCompare
    dsimp only
    rw [hdec]
    simp only [if_true]
    rw [hst1dec]
    simp only [if_true]
    rw [surfCacheState_of_at env _ k _ hat1, surfCacheState_of_at env _ k _ hat2]
    rw [hst2dec]
    simp only [if_true]
  have hcomp' : (surf.componentName.getD "" != "") = false := by simp [hcomp]
  have hp1dec : ∀ e : Ev, (pushTrace
      (cacheSurfaceContent env
        (cacheSurfaceContent env (decorCachePre env st k) k c) k
        (if occ.isTruthy then occ else c)) e).decorating = true := by
    intro e
    show (cacheSurfaceContent env
      (cacheSurfaceContent env (decorCachePre env st k) k c) k
      (if occ.isTruthy then occ else c)).decorating = true
    rw [decorating_of_flags (cacheSurfaceContent_flags env _ k _), hst2dec]
  have hmain : ∀ (recur : CState → String → CState),
      (∀ st' i, tracePure st' (recur st' i)) →
      ∀ (fuelR : Nat),
      ((if (cacheCompare env st k c (if occ.isTruthy then occ else c)).2 then
          renderPlaceholderSurfaceContents_ env recur
            (if (cacheCompare env st k c (if occ.isTruthy then occ else c)).1.decorating then
              pushTrace (cacheCompare env st k c (if occ.isTruthy then occ else c)).1
                (.attachListeners (if occ.isTruthy then occ else c) k)
            else (cacheCompare env st k c (if occ.isTruthy then occ else c)).1)
            c k
        else
          replaceSurfaceContent_ env fuelR
            (pushTrace (cacheCompare env st k c (if occ.isTruthy then occ else c)).1
              (.attachListeners (if occ.isTruthy then occ else c) k)) k c).trace.drop
          st.trace.length).head?
        = some (.cacheCheck k (computeSurfaceCacheState_ env c)
            (computeSurfaceCacheState_ env (.str (env.compress (env.outerHTML el))))
            (compareCacheStates_ (computeSurfaceCacheState_ env c)
              (computeSurfaceCacheState_ env
                (.str (env.compress (env.outerHTML el)))))) ∧
      (tokenFree c = true →
        surfCacheState env
          (if (cacheCompare env st k c (if occ.isTruthy then occ else c)).2 then
            renderPlaceholderSurfaceContents_ env recur
              (if (cacheCompare env st k c (if occ.isTruthy then occ else c)).1.decorating then
                pushTrace (cacheCompare env st k c (if occ.isTruthy then occ else c)).1
                  (.attachListeners (if occ.isTruthy then occ else c) k)
              else (cacheCompare env st k c (if occ.isTruthy then occ else c)).1)
              c k
          else
            replaceSurfaceContent_ env fuelR
              (pushTrace (cacheCompare env st k c (if occ.isTruthy then occ else c)).1
                (.attachListeners (if occ.isTruthy then occ else c) k)) k c) k
          = computeSurfaceCacheState_ env (if occ.isTruthy then occ else c)) := by
    intro recur hrec fuelR
    rw [hcc]
    dsimp only
    rw [hp1dec]
    simp only [if_true]
    cases hhit : compareCacheStates_ (computeSurfaceCacheState_ env c)
        (computeSurfaceCacheState_ env (.str (env.compress (env.outerHTML el)))) with
    | true =>
      simp only [if_true]
      constructor
      · obtain ⟨t, ht, -⟩ := renderPlaceholderSurfaceContents_tracePure env recur hrec
          (pushTrace (pushTrace (cacheSurfaceContent env
            (cacheSurfaceContent env (decorCachePre env st k) k c) k
            (if occ.isTruthy then occ else c))
            (.cacheCheck k (computeSurfaceCacheState_ env c)
              (computeSurfaceCacheState_ env (.str (env.compress (env.outerHTML el)))) true))
            (.attachListeners (if occ.isTruthy then occ else c) k)) c k
        rw [ht, pushTrace_trace, pushTrace_trace, htr3, List.append_assoc,
          List.append_assoc, List.drop_left]
        rfl
      · intro htf
        apply surfCacheState_of_at
        have hat5 : surfaceCacheAt env (pushTrace (pushTrace (cacheSurfaceContent env
            (cacheSurfaceContent env (decorCachePre env st k) k c) k
            (if occ.isTruthy then occ else c))
            (.cacheCheck k (computeSurfaceCacheState_ env c)
              (computeSurfaceCacheState_ env (.str (env.compress (env.outerHTML el)))) true))
            (.attachListeners (if occ.isTruthy then occ else c) k)) k
            (computeSurfaceCacheState_ env (if occ.isTruthy then occ else c)) :=
          surfaceCacheAt_pushTrace env _ _ k _
            (surfaceCacheAt_pushTrace env _ _ k _ hat3)
        cases c with
        | str s =>
          unfold renderPlaceholderSurfaceContents_
          dsimp only
          rw [rpscScan_no_token env recur k _ s.data _ (by simpa [tokenFree] using htf)]
          exact hat5
        | node i => exact hat5
        | undef => simp [Content.isDefAndNotNull] at hdf
    | false =>
      simp only [Bool.false_eq_true, if_false]
      constructor
      · obtain ⟨t, ht, -⟩ := replaceSurfaceContent_tracePure env fuelR
          (pushTrace (pushTrace (cacheSurfaceContent env
            (cacheSurfaceContent env (decorCachePre env st k) k c) k
            (if occ.isTruthy then occ else c))
            (.cacheCheck k (computeSurfaceCacheState_ env c)
              (computeSurfaceCacheState_ env (.str (env.compress (env.outerHTML el)))) false))
            (.attachListeners (if occ.isTruthy then occ else c) k)) k c
        rw [ht, pushTrace_trace, pushTrace_trace, htr3, List.append_assoc,
          List.append_assoc, List.drop_left]
        rfl
      · intro htf
        apply surfCacheState_of_at
        apply surfaceCacheAt_replaceSurfaceContent env fuelR _ k _ c htf
        exact surfaceCacheAt_pushTrace env _ _ k _
          (surfaceCacheAt_pushTrace env _ _ k _ hat3)
  cases fuel with
  | zero =>
    rw [renderSurfaceContent, hget]
    simp only [hcomp', Bool.false_eq_true, if_false, hcon, hdf, if_true]
    exact hmain (fun st' _ => st') (fun st' _ => tracePure_refl st') 0
  | succ f =>
    rw [renderSurfaceContent, hget]
    simp only [hcomp', Bool.false_eq_true, if_false, hcon, hdf, if_true]
    exact hmain (fun st' i => renderSurfaceContent env f st' i .undef .undef)
      (fun st' i => renderSurfaceContent_tracePure env f st' i .undef .undef) (f + 1)

theorem decorate_two_step_caching_witness :
    ((renderSurfaceContent envC5 3 stC5 "c-s1" (.str "new") (.str "steady")).trace.drop
        stC5.trace.length).head?
      = some (.cacheCheck "c-s1" (computeSurfaceCacheState_ envC5 (.str "new"))
          (computeSurfaceCacheState_ envC5 (.str (envC5.compress (envC5.outerHTML
            ((surfaceElementRef envC5 stC5 "c-s1").getD (.lookedUp "c-s1"))))))
          (compareCacheStates_ (computeSurfaceCacheState_ envC5 (.str "new"))
            (computeSurfaceCacheState_ envC5 (.str (envC5.compress (envC5.outerHTML
              ((surfaceElementRef envC5 stC5 "c-s1").getD (.lookedUp "c-s1")))))))) ∧
    surfCacheState envC5
        (renderSurfaceContent envC5 3 stC5 "c-s1" (.str "new") (.str "steady")) "c-s1"
      = computeSurfaceCacheState_ envC5
          (if (Content.str "steady").isTruthy then .str "steady" else .str "new") :=
  ⟨(decorate_two_step_caching envC5 3 stC5 "c-s1" {} (.str "new") (.str "new")
      (.str "steady") (by decide) (by decide) rfl rfl (by decide) (by decide)).1,
   (decorate_two_step_caching envC5 3 stC5 "c-s1" {} (.str "new") (.str "new")
      (.str "steady") (by decide) (by decide) rfl rfl (by decide) (by decide)).2
     (by decide)⟩

/-- Environment for the self-referential decorate counterexample: the DOM
markup equals the rendered content, which embeds the surface's own
placeholder token; the provider yields different plain content. -/
def envC5x : Env :=
  { compId := "c",
    getSurfaceContent := fun sid _ => if sid = "s1" then .str "z" else .undef,
    outerHTML := fun _ => "%%%%~s-c-s1~%%%%" }

/-- A decorating component with one registered plain surface. -/
def stC5x : CState := {addSurface envC5x {} "s1" none with decorating := true}

/-- The decorate-flow render of the self-referential content. -/
def c5xRun : CState :=
  renderSurfaceContent envC5x 5 stC5x "c-s1" (.str "%%%%~s-c-s1~%%%%") (.str "steady")

set_option maxRecDepth 8192 in
/-- C5 counterexample: with defined non-null content that embeds the
surface's own placeholder token, the comparison is still made against the
DOM markup (and here hits, first conjunct), but the hit path re-enters
`renderSurfaceContent` for the embedded placeholder — the same surface —
and caches its provider content: the stored cache state after the call is
the hash of the provider content `z`, not of the supplied steady cache
content `steady` as the claim asserts. -/
theorem decorate_nested_alias_overwrites_cache :
    (c5xRun.trace.drop stC5x.trace.length).head?
      = some (.cacheCheck "c-s1" (hashCode "%%%%~s-c-s1~%%%%")
          (hashCode "%%%%~s-c-s1~%%%%") true) ∧
    surfCacheState envC5x c5xRun "c-s1" = hashCode "z" ∧
    computeSurfaceCacheState_ envC5x
        (if (Content.str "steady").isTruthy then Content.str "steady"
         else Content.str "%%%%~s-c-s1~%%%%")
      = hashCode "steady" ∧
    hashCode "z" ≠ hashCode "steady" :=
  ⟨by decide, by decide, by decide, by decide⟩

end Metal
